import Mathlib

/-!
# Cosmo Studio — persistence core, shallow embedding

A shallow embedding of the client-side hybrid persistence layer of the
Cosmo Studio repository: the asynchronous blob store (`src/services/assetStore.ts`),
the synchronous metadata store and project registry (`projectService`,
`src/unnamed/part_002`), the per-entity hydration/dehydration pipeline
(`src/App.tsx`, `VoiceLab` in `src/unnamed/part_006`,
`src/components/CinemaLab.tsx`), and the import/export codec.

Modelling conventions:
* Both browser stores are partial maps `String → Option _`.  `localStorage`
  holds JSON documents; since every writer serialises with `JSON.stringify`
  and every reader parses with `JSON.parse` inside a `try`/`catch`, the
  store is modelled as holding the already-parsed value (`SliceVal`), with
  a `corrupt` constructor standing for unparsable text (the `catch` branch).
  A value of an unexpected shape at a key also falls back (no writer in the
  repository produces one).
* JS truthiness on the binary string fields: `null` and `""` are falsy;
  a check `if (x)` on a `string | null` becomes `x ≠ none ∧ x ≠ some ""`.
* `Date.now()` and `crypto.randomUUID()` are nondeterministic; they are
  passed in as explicit `now` / fresh-id arguments.
* Asynchronous fan-out (`Promise.all`) over store writes is modelled as a
  left fold; all the folded writes in this file target pairwise distinct
  keys under the hypotheses in play, so the serialisation order is
  immaterial.
-/

/-! ## Data model (`src/unnamed/part_004`, `types.ts`) -/

/-- `CastMember` of `types.ts`: binary field `image` (base64 data URI). -/
structure CastMember where
  id : String
  label : String
  role : String
  image : Option String
  mimeType : String
deriving DecidableEq, Repr

/-- `GeneratedScene` of `types.ts`: binary field `imageUrl`.  `cost` is a
JS number used only additively in the UI; it is embedded as `Option Int`. -/
structure GeneratedScene where
  id : String
  prompt : String
  imageUrl : Option String
  loading : Bool
  error : Option String
  timestamp : Int
  charactersIncluded : List String
  cost : Option Int
deriving DecidableEq, Repr

/-- `ScriptLine` of `types.ts`: binary field `audioUrl`. -/
structure ScriptLine where
  id : String
  speaker : String
  text : String
  audioUrl : Option String
  isLoading : Bool
  voiceName : String
  matchedCastId : Option String
  cost : Option Int
deriving DecidableEq, Repr

/-- The `status` union of `VideoJob`. -/
inductive JobStatus where
  | idle | generating | completed | failed
deriving DecidableEq, Repr

/-- `VideoJob` of `types.ts`: binary field `videoUrl`. -/
structure VideoJob where
  id : String
  sourceSceneId : String
  sourceImageUrl : String
  prompt : String
  videoUrl : Option String
  status : JobStatus
  error : Option String
  cost : Option Int
deriving DecidableEq, Repr

/-- The `voice` slice record `{ scriptText, voiceMap, lines }` persisted by
`VoiceLab` (`src/unnamed/part_006`).  The JS `voiceMap` object is an
association list. -/
structure VoiceData where
  scriptText : String
  voiceMap : List (String × String)
  lines : List ScriptLine
deriving DecidableEq, Repr

/-- `ProjectMetadata` of `types.ts`.  `ownerEmail`/`ownerId` are the
admin-view decorations, absent (`none`) on entries at rest. -/
structure ProjectMetadata where
  id : String
  title : String
  lastModified : Int
  sceneCount : Nat
  previewImage : Option String
  ownerEmail : Option String
  ownerId : Option String
deriving DecidableEq, Repr

/-- `User` of `types.ts` (`role` is the string union `'admin' | 'user'`). -/
structure User where
  id : String
  email : String
  role : String
deriving DecidableEq, Repr

/-! ## Blob Store (`src/services/assetStore.ts`)

IndexedDB is modelled as a partial map from keys to the stored strings. -/

/-- The IndexedDB `assets` object store. -/
def BlobStore := String → Option String

/-- The empty blob store. -/
def emptyBlobs : BlobStore := fun _ => none

/-- `store.put(data, key)`: full overwrite at `key`. -/
def blobSet (key data : String) (st : BlobStore) : BlobStore :=
  fun k => if k = key then some data else st k

/-- The `navigator.storage.estimate()` environment: `none` when the API is
unavailable (or the estimate rejects, the `catch` branch); otherwise the
reported `(usage, quota)` pair in bytes.  An `undefined` field of the JS
result is represented by `0` — both are falsy at the `if (usage && quota)`
guard. -/
structure QuotaEnv where
  estimate : Option (Nat × Nat)

/-- `checkQuotaSafe(payloadSize)` of `assetStore.ts:27-48`.  Note the JS
truthiness guard `if (usage && quota)`: a zero (or undefined) usage or
quota skips the headroom check entirely. -/
def checkQuotaSafe (env : QuotaEnv) (payloadSize : Nat) : Bool :=
  match env.estimate with
  | some (usage, quota) =>
    if usage ≠ 0 ∧ quota ≠ 0 then
      if (quota : Int) - (usage : Int) < (payloadSize : Int) then false else true
    else true
  | none => true

/-- The message of the error thrown by `saveAsset` on quota failure. -/
def quotaMsg : String := "Disk Quota Exceeded. Please delete old projects to free up space."

/-- `saveAsset(key, data)` of `assetStore.ts:51-68`: quota check on
`data.length`, then an IndexedDB `put` (full overwrite). -/
def saveAsset (env : QuotaEnv) (key data : String) (st : BlobStore) :
    Except String BlobStore :=
  if checkQuotaSafe env data.length then .ok (blobSet key data st)
  else .error quotaMsg

/-- `getAsset(key)` of `assetStore.ts:71-81`.  The resolver is
`resolve(request.result || null)`: an absent key resolves to `null`, and a
stored *empty* string is also collapsed to `null` by the `||`. -/
def getAsset (st : BlobStore) (key : String) : Option String :=
  match st key with
  | some v => if v = "" then none else some v
  | none => none

/-- `deleteAsset(key)` of `assetStore.ts:84-94`: IndexedDB `delete`, a
success whether or not the key is present. -/
def deleteAsset (key : String) (st : BlobStore) : BlobStore :=
  fun k => if k = key then none else st k

/-! ## Metadata Store (`localStorage`) and Project Registry
(`projectService`, `src/unnamed/part_002`) -/

/-- A parsed JSON document as stored in `localStorage`.  One constructor per
document shape the repository writes; `corrupt` models text `JSON.parse`
rejects (the `catch` branches), `emptyObj` the literal `{}` fallback. -/
inductive SliceVal where
  | index (ps : List ProjectMetadata)
  | users (us : List User)
  | castV (cs : List CastMember)
  | scenesV (ss : List GeneratedScene)
  | voiceV (v : VoiceData)
  | motionV (ms : List VideoJob)
  | draft (text : String)
  | emptyObj
  | corrupt
deriving DecidableEq, Repr

/-- The `localStorage` key-value store. -/
def LS := String → Option SliceVal

/-- The empty `localStorage`. -/
def emptyLS : LS := fun _ => none

/-- `localStorage.setItem(key, JSON.stringify(v))`. -/
def lsSet (key : String) (v : SliceVal) (ls : LS) : LS :=
  fun k => if k = key then some v else ls k

/-- `localStorage.removeItem(key)`. -/
def lsRemove (key : String) (ls : LS) : LS :=
  fun k => if k = key then none else ls k

/-- `getProjectIndexKey(userId)` of `part_002:4`. -/
def getProjectIndexKey (userId : String) : String :=
  "cosmo_project_index_" ++ userId

/-- `ALL_USERS_KEY` of `part_002:5`. -/
def allUsersKey : String := "cosmo_all_users"

/-- The compound slice key `cosmo_project_{projectId}_{keySuffix}` used by
`loadProjectData`/`saveProjectData`/`deleteProject` (`part_002`). -/
def projectDataKey (projectId keySuffix : String) : String :=
  "cosmo_project_" ++ projectId ++ "_" ++ keySuffix

/-- The inner `getProjectsForSingleUser` of `getAllProjects`
(`part_002:10-18`): parse the user's index, `[]` on absence or parse
failure. -/
def getProjectsForSingleUser (ls : LS) (userId : String) : List ProjectMetadata :=
  match ls (getProjectIndexKey userId) with
  | some (.index ps) => ps
  | _ => []

/-- The registered-user list read from `ALL_USERS_KEY` (`part_002:23-26`),
`[]` on absence or parse failure. -/
def loadAllUsers (ls : LS) : List User :=
  match ls allUsersKey with
  | some (.users us) => us
  | _ => []

/-- The decorated concatenation built by the admin branch of
`getAllProjects` (`part_002:28-32`): every user's index, each entry
decorated with the owning user's identity. -/
def adminConcat (ls : LS) : List ProjectMetadata :=
  (loadAllUsers ls).flatMap fun u =>
    (getProjectsForSingleUser ls u.id).map fun p =>
      { p with ownerEmail := some u.email, ownerId := some u.id }

/-- The order of the admin sort: `a` may precede `b` when
`b.lastModified ≤ a.lastModified` (the JS comparator
`(a, b) => b.lastModified - a.lastModified`). -/
def pmGE (a b : ProjectMetadata) : Prop := b.lastModified ≤ a.lastModified

instance : DecidableRel pmGE := fun a b =>
  inferInstanceAs (Decidable (b.lastModified ≤ a.lastModified))

instance : IsTotal ProjectMetadata pmGE :=
  ⟨fun a b => le_total b.lastModified a.lastModified⟩

instance : IsTrans ProjectMetadata pmGE :=
  ⟨fun _ _ _ h1 h2 => le_trans h2 h1⟩

/-- `allProjects.sort((a, b) => b.lastModified - a.lastModified)`
(`part_002:34`).  `Array.prototype.sort` with a consistent comparator is
required by ES2019 to be stable; any stable sort of a total preorder
produces the same list, so it is embedded as a stable insertion sort. -/
def sortByLastModifiedDesc (ps : List ProjectMetadata) : List ProjectMetadata :=
  List.insertionSort pmGE ps

/-- `getAllProjects(user, adminFetchAll)` of `part_002:7-38`.  The source's
`if (!user) return []` null guard is outside the model (the embedding
passes a `User` value). -/
def getAllProjects (ls : LS) (user : User) (adminFetchAll : Bool) :
    List ProjectMetadata :=
  if user.role = "admin" ∧ adminFetchAll = true then
    sortByLastModifiedDesc (adminConcat ls)
  else
    getProjectsForSingleUser ls user.id

/-- The dummy `{ id: userId, role: 'user' } as User` object the registry
builds for its internal index reads (no `email` field; modelled `""`). -/
def dummyUser (userId : String) : User := ⟨userId, "", "user"⟩

/-- `loadProjectData(userId, projectId, keySuffix, fallback)` of
`part_002:109-116`: the parsed document at the compound slice key, the
fallback on absence or parse failure.  `userId` is accepted and ignored,
exactly as in the source. -/
def loadProjectData (userId projectId keySuffix : String) (fallback : SliceVal)
    (ls : LS) : SliceVal :=
  match ls (projectDataKey projectId keySuffix) with
  | some .corrupt => fallback
  | some v => v
  | none => fallback

/-- In-place update of the first index entry with the given id
(`projects[index] = { ...projects[index], ...updates, lastModified: now }`). -/
def updateFirstById (id : String) (f : ProjectMetadata → ProjectMetadata) :
    List ProjectMetadata → List ProjectMetadata
  | [] => []
  | p :: ps => if p.id = id then f p :: ps else p :: updateFirstById id f ps

/-- `updateProjectMeta(userId, id, updates)` of `part_002:56-64`: find the
entry by id in the loaded index; silently no-op when absent; otherwise
merge (`f` is the field merge of `updates`) and bump `lastModified`, then
persist the whole index. -/
def updateProjectMeta (userId id : String) (f : ProjectMetadata → ProjectMetadata)
    (now : Int) (ls : LS) : LS :=
  let projects := getAllProjects ls (dummyUser userId) false
  if projects.any (fun p => p.id = id) then
    lsSet (getProjectIndexKey userId)
      (.index (updateFirstById id (fun p => { f p with lastModified := now }) projects)) ls
  else ls

/-- `saveProjectData(userId, projectId, keySuffix, data)` of
`part_002:118-121`: write the slice, then bump the project's
`lastModified` through `updateProjectMeta`. -/
def saveProjectData (userId projectId keySuffix : String) (v : SliceVal)
    (now : Int) (ls : LS) : LS :=
  updateProjectMeta userId projectId (fun p => p) now
    (lsSet (projectDataKey projectId keySuffix) v ls)

/-! ## Cascading delete (`deleteProject`, `part_002:66-96`)

`deleteProject` is embedded as a trace of primitive operations folded over
the combined state, so that the operation *order* (all blob deletions,
then the five slice-key removals, then the index rewrite) is itself a
term the theorems can inspect. -/

/-- The combined browser state: `localStorage` plus the IndexedDB blob
store. -/
structure St where
  ls : LS
  blobs : BlobStore

/-- One primitive step of `deleteProject`. -/
inductive DelOp where
  | blobDelete (key : String)
  | sliceRemove (key : String)
  | indexFilter (userId id : String)
deriving DecidableEq, Repr

/-- The effect of one `DelOp`.  `indexFilter` re-reads the index at apply
time (`part_002:93-95` runs after the removals) and persists it with every
entry of the given project id filtered out. -/
def applyDelOp (st : St) : DelOp → St
  | .blobDelete k => { st with blobs := deleteAsset k st.blobs }
  | .sliceRemove k => { st with ls := lsRemove k st.ls }
  | .indexFilter userId id =>
    let projects :=
      (getAllProjects st.ls (dummyUser userId) false).filter (fun p => p.id ≠ id)
    { st with ls := lsSet (getProjectIndexKey userId) (.index projects) st.ls }

/-- The five slice suffixes removed by `deleteProject` (`part_002:87-91`). -/
def sliceSuffixes : List String :=
  ["cast", "scenes", "voice", "motion", "prompt_draft"]

/-- The blob-deletion keys `deleteProject` derives from the four loaded
slices (`part_002:67-83`): cast images, scene images, voice-line audio
(only lines with a truthy id, `if (l.id)`), video-job video. -/
def deleteProjectBlobKeys (st : St) (userId id : String) : List String :=
  let castData := match loadProjectData userId id "cast" (.castV []) st.ls with
    | .castV cs => cs | _ => []
  let sceneData := match loadProjectData userId id "scenes" (.scenesV []) st.ls with
    | .scenesV ss => ss | _ => []
  let voiceLines := match loadProjectData userId id "voice" .emptyObj st.ls with
    | .voiceV v => v.lines | _ => []
  let motionData := match loadProjectData userId id "motion" (.motionV []) st.ls with
    | .motionV ms => ms | _ => []
  castData.map (fun c => "cast_" ++ c.id) ++
  sceneData.map (fun s => "scene_" ++ s.id) ++
  (voiceLines.filter (fun l => l.id ≠ "")).map (fun l => "voice_" ++ l.id) ++
  motionData.map (fun j => "video_" ++ j.id)

/-- The trace of `deleteProject(userId, id)`: concurrent blob deletions
(awaited via `Promise.all`), then the five slice-key removals, then the
index rewrite — in the source's order. -/
def deleteProjectOps (st : St) (userId id : String) : List DelOp :=
  (deleteProjectBlobKeys st userId id).map DelOp.blobDelete ++
  sliceSuffixes.map (fun s => DelOp.sliceRemove (projectDataKey id s)) ++
  [DelOp.indexFilter userId id]

/-- `deleteProject(userId, id)` of `part_002:66-96`: the trace applied in
order. -/
def deleteProject (userId id : String) (st : St) : St :=
  (deleteProjectOps st userId id).foldl applyDelOp st

/-! ## Derived blob keys and JS truthiness helper -/

/-- Blob key for a cast member's image: `` `cast_${id}` ``. -/
def castKey (id : String) : String := "cast_" ++ id

/-- Blob key for a scene's image: `` `scene_${id}` ``. -/
def sceneKey (id : String) : String := "scene_" ++ id

/-- Blob key for a script line's audio: `` `voice_${id}` ``. -/
def voiceKey (id : String) : String := "voice_" ++ id

/-- Blob key for a video job's video: `` `video_${id}` ``. -/
def videoKey (id : String) : String := "video_" ++ id

/-- JS truthiness of a `string | null` value: `null` and `""` are falsy. -/
def strTruthy : Option String → Bool
  | none => false
  | some s => s != ""

/-! ## Per-entity hydration (load side)

`handleLoadProject` (`src/App.tsx:112-153`) for cast and scenes, the
`VoiceLab` hydrate effect (`src/unnamed/part_006:27-48`) for script lines,
and the `CinemaLab` hydrate effect (`CinemaLab.tsx:21-37`) for video jobs.
Each entity is restored independently; a missing blob leaves the field
`null`. -/

/-- Cast-member hydration (`App.tsx:128-135`): when `image` is falsy,
fetch `` `cast_${id}` `` and splice it in if found. -/
def hydrateCastMember (b : BlobStore) (c : CastMember) : CastMember :=
  if strTruthy c.image then c
  else
    match getAsset b (castKey c.id) with
    | some img => { c with image := some img }
    | none => c

/-- Scene hydration (`App.tsx:136-144`): fetch only when `imageUrl` is
falsy *and* the scene is not still marked `loading`. -/
def hydrateScene (b : BlobStore) (s : GeneratedScene) : GeneratedScene :=
  if !strTruthy s.imageUrl && !s.loading then
    match getAsset b (sceneKey s.id) with
    | some img => { s with imageUrl := some img }
    | none => s
  else s

/-- Script-line hydration (`part_006:34-41`): fetch only when `audioUrl`
is falsy and the line has a truthy `id`. -/
def hydrateLine (b : BlobStore) (l : ScriptLine) : ScriptLine :=
  if !strTruthy l.audioUrl && l.id != "" then
    match getAsset b (voiceKey l.id) with
    | some a => { l with audioUrl := some a }
    | none => l
  else l

/-- Video-job hydration (`CinemaLab.tsx:25-31`): fetch only for a
`completed` job whose `videoUrl` is falsy. -/
def hydrateJob (b : BlobStore) (j : VideoJob) : VideoJob :=
  if j.status = .completed && !strTruthy j.videoUrl then
    match getAsset b (videoKey j.id) with
    | some v => { j with videoUrl := some v }
    | none => j
  else j

/-! ## Per-entity dehydration (auto-save side)

The debounced save paths: `saveProject` (`src/App.tsx:207-229`) for cast
and scenes, `VoiceLab` (`part_006:51-64`) for lines, `CinemaLab`
(`CinemaLab.tsx:39-55`) for jobs.  Each strips the binary field to `null`
for the metadata slice and writes the payload to the blob store unless the
payload is falsy or its `(blobKey, payloadLength)` signature is already in
the per-process `lastSaved…` set. -/

/-- Change-detection signature `` `cast_${id}_${payload.length}` ``. -/
def castSig (id payload : String) : String :=
  "cast_" ++ id ++ "_" ++ toString payload.length

/-- Change-detection signature `` `scene_${id}_${payload.length}` ``. -/
def sceneSig (id payload : String) : String :=
  "scene_" ++ id ++ "_" ++ toString payload.length

/-- Change-detection signature `` `voice_${id}_${payload.length}` ``. -/
def voiceSig (id payload : String) : String :=
  "voice_" ++ id ++ "_" ++ toString payload.length

/-- Change-detection signature `` `video_${id}_${payload.length}` ``. -/
def videoSig (id payload : String) : String :=
  "video_" ++ id ++ "_" ++ toString payload.length

/-- Cast-member dehydration (`App.tsx:209-216`): the stripped metadata
entity, plus the conditional blob write (`saveAsset` may fail on quota). -/
def saveCastEntity (env : QuotaEnv) (sigs : List String) (b : BlobStore)
    (c : CastMember) : Except String (CastMember × BlobStore × List String) :=
  let meta := { c with image := none }
  match c.image with
  | some v =>
    if v = "" then .ok (meta, b, sigs)
    else if castSig c.id v ∈ sigs then .ok (meta, b, sigs)
    else
      match saveAsset env (castKey c.id) v b with
      | .ok b' => .ok (meta, b', castSig c.id v :: sigs)
      | .error e => .error e
  | none => .ok (meta, b, sigs)

/-- Scene dehydration (`App.tsx:217-224`). -/
def saveSceneEntity (env : QuotaEnv) (sigs : List String) (b : BlobStore)
    (s : GeneratedScene) : Except String (GeneratedScene × BlobStore × List String) :=
  let meta := { s with imageUrl := none }
  match s.imageUrl with
  | some v =>
    if v = "" then .ok (meta, b, sigs)
    else if sceneSig s.id v ∈ sigs then .ok (meta, b, sigs)
    else
      match saveAsset env (sceneKey s.id) v b with
      | .ok b' => .ok (meta, b', sceneSig s.id v :: sigs)
      | .error e => .error e
  | none => .ok (meta, b, sigs)

/-- Script-line dehydration (`part_006:55-62`). -/
def saveLineEntity (env : QuotaEnv) (sigs : List String) (b : BlobStore)
    (l : ScriptLine) : Except String (ScriptLine × BlobStore × List String) :=
  let meta := { l with audioUrl := none }
  match l.audioUrl with
  | some v =>
    if v = "" then .ok (meta, b, sigs)
    else if voiceSig l.id v ∈ sigs then .ok (meta, b, sigs)
    else
      match saveAsset env (voiceKey l.id) v b with
      | .ok b' => .ok (meta, b', voiceSig l.id v :: sigs)
      | .error e => .error e
  | none => .ok (meta, b, sigs)

/-- Video-job dehydration (`CinemaLab.tsx:44-51`): the blob is written
only for a truthy `videoUrl` on a `completed` job. -/
def saveJobEntity (env : QuotaEnv) (sigs : List String) (b : BlobStore)
    (j : VideoJob) : Except String (VideoJob × BlobStore × List String) :=
  let meta := { j with videoUrl := none }
  match j.videoUrl with
  | some v =>
    if v = "" then .ok (meta, b, sigs)
    else if j.status = .completed then
      if videoSig j.id v ∈ sigs then .ok (meta, b, sigs)
      else
        match saveAsset env (videoKey j.id) v b with
        | .ok b' => .ok (meta, b', videoSig j.id v :: sigs)
        | .error e => .error e
    else .ok (meta, b, sigs)
  | none => .ok (meta, b, sigs)

/-! ## Export (`exportProject`, `part_002:125-173`)

Export loads the four slices, re-attaches every binary from the blob
store, and emits one document.  (The memory-safe chunked `Blob`
construction at `part_002:159-172` is pure serialisation; the embedding
keeps the structured document, `JSON.parse ∘ JSON.stringify` being the
identity on it.) -/

/-- The typed read of the `cast` slice (`loadProjectData(..., "cast", [])`). -/
def loadCastSlice (userId pid : String) (ls : LS) : List CastMember :=
  match loadProjectData userId pid "cast" (.castV []) ls with
  | .castV cs => cs
  | _ => []

/-- The typed read of the `scenes` slice. -/
def loadScenesSlice (userId pid : String) (ls : LS) : List GeneratedScene :=
  match loadProjectData userId pid "scenes" (.scenesV []) ls with
  | .scenesV ss => ss
  | _ => []

/-- The typed read of the `voice` slice with export's fallback
`{ scriptText: "", voiceMap: {}, lines: [] }`. -/
def loadVoiceSlice (userId pid : String) (ls : LS) : VoiceData :=
  match loadProjectData userId pid "voice" (.voiceV ⟨"", [], []⟩) ls with
  | .voiceV v => v
  | _ => ⟨"", [], []⟩

/-- The typed read of the `motion` slice. -/
def loadMotionSlice (userId pid : String) (ls : LS) : List VideoJob :=
  match loadProjectData userId pid "motion" (.motionV []) ls with
  | .motionV ms => ms
  | _ => []

/-- Export-side cast re-attachment (`part_002:137-140`):
`{ ...c, image: img || c.image }`. -/
def exportHydrateCast (b : BlobStore) (c : CastMember) : CastMember :=
  match getAsset b (castKey c.id) with
  | some img => { c with image := some img }
  | none => c

/-- Export-side scene re-attachment (`part_002:142-145`). -/
def exportHydrateScene (b : BlobStore) (s : GeneratedScene) : GeneratedScene :=
  match getAsset b (sceneKey s.id) with
  | some img => { s with imageUrl := some img }
  | none => s

/-- Export-side line re-attachment (`part_002:147-151`): a truthy
`audioUrl` is kept; otherwise the field becomes the fetch result, found
or not. -/
def exportHydrateLine (b : BlobStore) (l : ScriptLine) : ScriptLine :=
  if strTruthy l.audioUrl then l
  else { l with audioUrl := getAsset b (voiceKey l.id) }

/-- Export-side job re-attachment (`part_002:153-157`). -/
def exportHydrateJob (b : BlobStore) (m : VideoJob) : VideoJob :=
  if strTruthy m.videoUrl then m
  else { m with videoUrl := getAsset b (videoKey m.id) }

/-- A project's cast/scenes/voice/motion content: the slice metadata with
every binary payload re-joined from the blob store — exactly steps 1–2 of
`exportProject`. -/
structure ProjectContent where
  cast : List CastMember
  scenes : List GeneratedScene
  voice : VoiceData
  motion : List VideoJob
deriving DecidableEq, Repr

/-- The fully hydrated content of project `pid` in state `st`
(`part_002:131-157`). -/
def projectContent (userId pid : String) (st : St) : ProjectContent :=
  let voiceMeta := loadVoiceSlice userId pid st.ls
  { cast := (loadCastSlice userId pid st.ls).map (exportHydrateCast st.blobs)
    scenes := (loadScenesSlice userId pid st.ls).map (exportHydrateScene st.blobs)
    voice := { voiceMeta with lines := voiceMeta.lines.map (exportHydrateLine st.blobs) }
    motion := (loadMotionSlice userId pid st.ls).map (exportHydrateJob st.blobs) }

/-- The portable export document (§6 of the repository's format, version
`"2.3"`). -/
structure FullProjectExport where
  version : String
  metadata : ProjectMetadata
  cast : List CastMember
  scenes : List GeneratedScene
  voice : VoiceData
  motion : List VideoJob
deriving DecidableEq, Repr

/-- `exportProject(userId, projectId)` of `part_002:125-173`: `none` when
the project is not in the user's index (the `"Project not found"` throw). -/
def exportProject (userId pid : String) (st : St) : Option FullProjectExport :=
  match (getAllProjects st.ls (dummyUser userId) false).find? (fun p => p.id = pid) with
  | none => none
  | some md =>
    let c := projectContent userId pid st
    some { version := "2.3", metadata := md, cast := c.cast, scenes := c.scenes,
           voice := c.voice, motion := c.motion }

/-! ## Import (`importProject`, `part_002:175-219`) -/

/-- A parsed import document: every top-level section may be absent
(`JSON.parse` of arbitrary input). -/
structure ImportDoc where
  version : Option String
  metadata : Option ProjectMetadata
  cast : Option (List CastMember)
  scenes : Option (List GeneratedScene)
  voice : Option VoiceData
  motion : Option (List VideoJob)
deriving DecidableEq, Repr

/-- A just-exported document, as import re-parses it. -/
def FullProjectExport.toImportDoc (d : FullProjectExport) : ImportDoc :=
  { version := some d.version, metadata := some d.metadata, cast := some d.cast,
    scenes := some d.scenes, voice := some d.voice, motion := some d.motion }

/-- The message of the error `importProject` rethrows from its outer
`catch` — the only failure its callers observe (the spec's
`InvalidFormat` taxonomy entry included). -/
def importFailMsg : String := "Failed to import project file."

/-- The shape shared by the four import blob fan-outs
(`part_002:196,200,207,211`): one `saveAsset` per entity with a truthy
binary (`x ? saveAsset(key, x) : Promise.resolve()`).  On a rejection the
fold stops, keeping the writes already applied (under the quota
hypotheses used below no write fails, so the stop-at-first-error
serialisation of `Promise.all` is exact). -/
def writeEntityBlobs {α : Type} (env : QuotaEnv) (key : α → String)
    (bin : α → Option String) : List α → BlobStore → BlobStore × Option String
  | [], b => (b, none)
  | x :: xs, b =>
    match bin x with
    | some v =>
      if v = "" then writeEntityBlobs env key bin xs b
      else
        match saveAsset env (key x) v b with
        | .ok b' => writeEntityBlobs env key bin xs b'
        | .error e => (b, some e)
    | none => writeEntityBlobs env key bin xs b

/-- The fan-out of cast blob writes (`part_002:196`). -/
def writeCastBlobs (env : QuotaEnv) (cs : List CastMember) (b : BlobStore) :
    BlobStore × Option String :=
  writeEntityBlobs env (fun c => castKey c.id) (fun c => c.image) cs b

/-- The fan-out of scene blob writes (`part_002:200`). -/
def writeSceneBlobs (env : QuotaEnv) (ss : List GeneratedScene) (b : BlobStore) :
    BlobStore × Option String :=
  writeEntityBlobs env (fun s => sceneKey s.id) (fun s => s.imageUrl) ss b

/-- The fan-out of voice-line blob writes (`part_002:207`). -/
def writeVoiceBlobs (env : QuotaEnv) (ls : List ScriptLine) (b : BlobStore) :
    BlobStore × Option String :=
  writeEntityBlobs env (fun l => voiceKey l.id) (fun l => l.audioUrl) ls b

/-- The fan-out of video-job blob writes (`part_002:211`). -/
def writeMotionBlobs (env : QuotaEnv) (ms : List VideoJob) (b : BlobStore) :
    BlobStore × Option String :=
  writeEntityBlobs env (fun m => videoKey m.id) (fun m => m.videoUrl) ms b

/-- `importProject(userId, jsonString)` of `part_002:175-219`, on an
already-parsed document.  The whole body runs inside one `try`/`catch`
that rethrows `importFailMsg`; in particular `data.voice.lines`
(`part_002:204`) and `data.motion.map` (`part_002:209`) throw when the
optional section is absent, *after* the index and the cast/scenes slices
were already written.  `newId` stands for `crypto.randomUUID()`, `now`
for `Date.now()`.  The second component is the state as left behind
(writes before a throw persist). -/
def importProjectBody (env : QuotaEnv) (userId newId : String) (now : Int)
    (md : ProjectMetadata) (cast : List CastMember) (scenes : List GeneratedScene)
    (dvo : Option VoiceData) (dmo : Option (List VideoJob)) (st : St) :
    Except String ProjectMetadata × St :=
  let newMeta : ProjectMetadata :=
    { md with id := newId, title := md.title ++ " (Imported)", lastModified := now }
  let ls0 := lsSet (getProjectIndexKey userId)
    (.index (newMeta :: getAllProjects st.ls (dummyUser userId) false)) st.ls
  let ls1 := saveProjectData userId newId "cast"
    (.castV (cast.map fun c => { c with image := none })) now ls0
  match writeCastBlobs env cast st.blobs with
  | (b1, some _) => (.error importFailMsg, ⟨ls1, b1⟩)
  | (b1, none) =>
    let ls2 := saveProjectData userId newId "scenes"
      (.scenesV (scenes.map fun s => { s with imageUrl := none })) now ls1
    match writeSceneBlobs env scenes b1 with
    | (b2, some _) => (.error importFailMsg, ⟨ls2, b2⟩)
    | (b2, none) =>
      match dvo with
      | none => (.error importFailMsg, ⟨ls2, b2⟩)
      | some vo =>
        let ls3 := saveProjectData userId newId "voice"
          (.voiceV { vo with lines := vo.lines.map fun l => { l with audioUrl := none } })
          now ls2
        match writeVoiceBlobs env vo.lines b2 with
        | (b3, some _) => (.error importFailMsg, ⟨ls3, b3⟩)
        | (b3, none) =>
          match dmo with
          | none => (.error importFailMsg, ⟨ls3, b3⟩)
          | some ms =>
            let ls4 := saveProjectData userId newId "motion"
              (.motionV (ms.map fun m => { m with videoUrl := none })) now ls3
            match writeMotionBlobs env ms b3 with
            | (b4, some _) => (.error importFailMsg, ⟨ls4, b4⟩)
            | (b4, none) => (.ok newMeta, ⟨ls4, b4⟩)

/-- `importProject(userId, jsonString)`, continued: the required-section
validation (`part_002:179`), then the body. -/
def importProject (env : QuotaEnv) (userId newId : String) (now : Int)
    (doc : ImportDoc) (st : St) : Except String ProjectMetadata × St :=
  match doc.metadata, doc.cast, doc.scenes with
  | some md, some cast, some scenes =>
    importProjectBody env userId newId now md cast scenes doc.voice doc.motion st
  | _, _, _ => (.error importFailMsg, st)

/-! ## Support definitions for the theorems -/

/-- The pure effect of a fan-out of entity blob writes when every
`saveAsset` succeeds. -/
def applyEntityBlobs {α : Type} (key : α → String) (bin : α → Option String) :
    List α → BlobStore → BlobStore
  | [], b => b
  | x :: xs, b =>
    match bin x with
    | some v =>
      if v = "" then applyEntityBlobs key bin xs b
      else applyEntityBlobs key bin xs (blobSet (key x) v b)
    | none => applyEntityBlobs key bin xs b

/-- Removal of a list of `localStorage` keys, in order. -/
def lsRemoveAll (ks : List String) (ls : LS) : LS :=
  ks.foldl (fun l k => lsRemove k l) ls

/-- Deletion of a list of blob keys, in order. -/
def deleteAssetAll (ks : List String) (b : BlobStore) : BlobStore :=
  ks.foldl (fun b' k => deleteAsset k b') b

/-- Per-slice entity-id uniqueness of an export document (§8 of the spec
records globally unique entity ids as an implementation constraint). -/
def docSliceIdsNodup (d : FullProjectExport) : Prop :=
  (d.cast.map CastMember.id).Nodup ∧ (d.scenes.map GeneratedScene.id).Nodup ∧
  (d.voice.lines.map ScriptLine.id).Nodup ∧ (d.motion.map VideoJob.id).Nodup

/-- No cast or scene binary of the document is the *empty* string (the
blob-store interface collapses `""` to `null`; voice and motion sections
of an exported document cannot carry `""` by construction). -/
def docNoEmptyBinary (d : FullProjectExport) : Prop :=
  (∀ c ∈ d.cast, c.image ≠ some "") ∧ (∀ s ∈ d.scenes, s.imageUrl ≠ some "")

/-- A quota environment under which every payload passes the pre-write
check (for instance `estimate = none`: the API is unavailable). -/
def quotaAlwaysOk (env : QuotaEnv) : Prop :=
  ∀ n, checkQuotaSafe env n = true

/-! ## Concrete fixtures (witnesses and counterexamples) -/

/-- A quota environment without a platform estimate. -/
def envFree : QuotaEnv := ⟨none⟩

/-- A platform estimate reporting zero usage and a 1-byte quota. -/
def envZeroUsage : QuotaEnv := ⟨some (0, 1)⟩

/-- The empty combined state. -/
def st0 : St := ⟨emptyLS, emptyBlobs⟩

/-- Fixture project summary "a". -/
def pA : ProjectMetadata := ⟨"a", "Alpha", 10, 0, none, none, none⟩

/-- Fixture project summary "b". -/
def pB : ProjectMetadata := ⟨"b", "Beta", 5, 0, none, none, none⟩

/-- A state in which user `"u"` owns projects `"a"` and `"b"`. -/
def stA : St := ⟨lsSet (getProjectIndexKey "u") (.index [pA, pB]) emptyLS, emptyBlobs⟩

/-- Fixture admin user. -/
def uAdmin : User := ⟨"adm", "adm@example.com", "admin"⟩

/-- Fixture regular user 1. -/
def uOne : User := ⟨"u1", "one@example.com", "user"⟩

/-- Fixture regular user 2. -/
def uTwo : User := ⟨"u2", "two@example.com", "user"⟩

/-- A `localStorage` with two registered users, each owning one project. -/
def lsMulti : LS :=
  lsSet allUsersKey (.users [uOne, uTwo])
    (lsSet (getProjectIndexKey "u1") (.index [pB])
      (lsSet (getProjectIndexKey "u2") (.index [pA]) emptyLS))

/-- A cast member whose binary field is the *empty* string — non-null in
the JS sense, yet falsy. -/
def cEmptyImage : CastMember := ⟨"1", "Char1", "The Hero", some "", ""⟩

/-- `cEmptyImage` with its binary field stripped. -/
def cEmptyImageMeta : CastMember := ⟨"1", "Char1", "The Hero", none, ""⟩

/-- Fixture cast member with a populated image. -/
def cW : CastMember := ⟨"c1", "Char1", "Hero", some "IMGDATA", "image/png"⟩

/-- Fixture scene with a populated image, not loading. -/
def sW : GeneratedScene := ⟨"s1", "a scene", some "SCNDATA", false, none, 7, ["Char1"], none⟩

/-- Fixture script line with populated audio. -/
def lW : ScriptLine := ⟨"l1", "Hero", "hi", some "AUDDATA", false, "Puck", none, none⟩

/-- Fixture completed video job with populated video. -/
def jW : VideoJob := ⟨"j1", "s1", "SRC", "pan", some "VIDDATA", .completed, none, none⟩

/-- Fixture source-project metadata for the import/export claims. -/
def mdW : ProjectMetadata := ⟨"p1", "My Film", 3, 1, none, none, none⟩

/-- An import document with every section present (empty slices). -/
def docFull : ImportDoc :=
  ⟨some "2.3", some mdW, some [], some [], some ⟨"", [], []⟩, some []⟩

/-- An import document missing the required `cast` section. -/
def docNoCast : ImportDoc :=
  ⟨some "2.3", some mdW, none, some [], some ⟨"", [], []⟩, some []⟩

/-- An import document with the required sections present but the
*optional* `voice` section absent. -/
def docNoVoice : ImportDoc :=
  ⟨some "2.3", some mdW, some [], some [], none, some []⟩

/-- A source state owning project `"p1"`: one dehydrated cast member whose
image lives in the blob store. -/
def stSrc : St :=
  ⟨lsSet (getProjectIndexKey "u") (.index [mdW])
      (lsSet (projectDataKey "p1" "cast") (.castV [⟨"c1", "Char1", "Hero", none, "image/png"⟩])
        emptyLS),
    blobSet (castKey "c1") "IMGDATA" emptyBlobs⟩

/-- The document `exportProject "u" "p1" stSrc` produces. -/
def docSrc : FullProjectExport :=
  { version := "2.3", metadata := mdW,
    cast := [⟨"c1", "Char1", "Hero", some "IMGDATA", "image/png"⟩],
    scenes := [], voice := ⟨"", [], []⟩, motion := [] }

/-! ## Pointwise store lemmas -/

theorem blobSet_self (k d : String) (st : BlobStore) : blobSet k d st k = some d := by
  simp [blobSet]

theorem blobSet_other {k k' : String} (d : String) (st : BlobStore) (h : k' ≠ k) :
    blobSet k d st k' = st k' := by
  simp [blobSet, h]

theorem getAsset_blobSet_self (k v : String) (st : BlobStore) :
    getAsset (blobSet k v st) k = if v = "" then none else some v := by
  simp [getAsset, blobSet]

theorem getAsset_blobSet_other {k k' : String} (v : String) (st : BlobStore) (h : k' ≠ k) :
    getAsset (blobSet k v st) k' = getAsset st k' := by
  simp [getAsset, blobSet, h]

theorem lsSet_self (k : String) (v : SliceVal) (ls : LS) : lsSet k v ls k = some v := by
  simp [lsSet]

theorem lsSet_other {k k' : String} (v : SliceVal) (ls : LS) (h : k' ≠ k) :
    lsSet k v ls k' = ls k' := by
  simp [lsSet, h]

/-! ## C9 — the empty payload collapses to `null` -/

/-- C9: at the blob-store interface an empty payload is indistinguishable
from an absent key.  (1) a stored `""` reads back as `null`; (2) `getAsset`
never returns `""`; (3) saving `""` succeeds when the quota check passes,
yet reads back `null`; (4) the `saveAsset`-then-`getAsset` round trip
returns the stored value exactly for non-empty payloads. -/
theorem getAsset_collapses_empty :
    (∀ (st : BlobStore) (k : String), st k = some "" → getAsset st k = none) ∧
    (∀ (st : BlobStore) (k : String), getAsset st k ≠ some "") ∧
    (∀ (env : QuotaEnv) (st : BlobStore) (k : String),
      checkQuotaSafe env 0 = true →
      saveAsset env k "" st = .ok (blobSet k "" st) ∧
      getAsset (blobSet k "" st) k = none) ∧
    (∀ (env : QuotaEnv) (st : BlobStore) (k v : String),
      checkQuotaSafe env v.length = true → v ≠ "" →
      saveAsset env k v st = .ok (blobSet k v st) ∧
      getAsset (blobSet k v st) k = some v) := by
  refine ⟨fun st k h => by simp [getAsset, h], fun st k => ?_, fun env st k h => ?_, ?_⟩
  · unfold getAsset
    cases hst : st k with
    | none => simp
    | some v =>
      by_cases hv : v = "" <;> simp [hv]
  · constructor
    · simp [saveAsset, h]
    · simp [getAsset_blobSet_self]
  · intro env st k v h hv
    exact ⟨by simp [saveAsset, h], by simp [getAsset_blobSet_self, hv]⟩

/-- Witness for C9 at concrete inputs. -/
theorem getAsset_collapses_empty_witness :
    getAsset (blobSet "k" "" emptyBlobs) "k" = none ∧
    saveAsset envFree "k" "v" emptyBlobs = .ok (blobSet "k" "v" emptyBlobs) ∧
    getAsset (blobSet "k" "v" emptyBlobs) "k" = some "v" := by
  refine ⟨(getAsset_collapses_empty.2.2.1 envFree emptyBlobs "k" rfl).2, ?_, ?_⟩
  · exact (getAsset_collapses_empty.2.2.2 envFree emptyBlobs "k" "v" rfl (by decide)).1
  · exact (getAsset_collapses_empty.2.2.2 envFree emptyBlobs "k" "v" rfl (by decide)).2

/-! ## C4 — quota gate of `saveAsset` (corrected)

The claim as stated fails when the platform estimate reports a *zero*
usage (or quota): the JS truthiness guard `if (usage && quota)` at
`assetStore.ts:31` then skips the headroom check and the write proceeds
even though the reported remaining space is smaller than the payload.
`saveAsset_quota_gate_counterexample` exhibits this; the amended claim
additionally requires both reported numbers to be nonzero. -/

/-- C4 counterexample: with `estimate = { usage: 0, quota: 1 }` the
remaining space (1 byte) is smaller than the 2-byte payload, yet
`saveAsset` succeeds and writes. -/
theorem saveAsset_quota_gate_counterexample :
    ((1 : Int) - (0 : Int) < (("ab".length : Nat) : Int)) ∧
    saveAsset envZeroUsage "k" "ab" emptyBlobs = .ok (blobSet "k" "ab" emptyBlobs) := by
  exact ⟨by decide, rfl⟩

/-- C4 (amended): when the platform estimate is available with *nonzero*
usage and quota and reports remaining space smaller than the payload,
`saveAsset` fails with the quota error and performs no write; whenever the
quota check passes, `saveAsset` overwrites any existing value at the key. -/
theorem saveAsset_quota_gate (env : QuotaEnv) (k d : String) (st : BlobStore) :
    (∀ usage quota : Nat, env.estimate = some (usage, quota) → usage ≠ 0 → quota ≠ 0 →
      (quota : Int) - (usage : Int) < (d.length : Int) →
      saveAsset env k d st = .error quotaMsg) ∧
    (checkQuotaSafe env d.length = true →
      saveAsset env k d st = .ok (blobSet k d st) ∧ blobSet k d st k = some d) := by
  constructor
  · intro usage quota hest hu hq hlt
    have hc : checkQuotaSafe env d.length = false := by
      simp [checkQuotaSafe, hest, hu, hq, hlt]
    simp [saveAsset, hc]
  · intro h
    exact ⟨by simp [saveAsset, h], blobSet_self k d st⟩

/-- Witness for C4 (amended) at concrete inputs: a 3-byte payload against
`usage = 2, quota = 4` fails; the same payload passes with no estimate. -/
theorem saveAsset_quota_gate_witness :
    saveAsset ⟨some (2, 4)⟩ "k" "abc" emptyBlobs = .error quotaMsg ∧
    saveAsset envFree "k" "abc" emptyBlobs = .ok (blobSet "k" "abc" emptyBlobs) := by
  constructor
  · exact (saveAsset_quota_gate ⟨some (2, 4)⟩ "k" "abc" emptyBlobs).1 2 4 rfl
      (by decide) (by decide) (by decide)
  · exact ((saveAsset_quota_gate envFree "k" "abc" emptyBlobs).2 rfl).1

/-! ## C10 — slice reads ignore the user id -/

/-- C10: `loadProjectData` is independent of its `userId` argument — the
slice key is derived from the project id and suffix only, so any caller
knowing a project id can read that project's slices; per-user isolation
rests entirely on the project index. -/
theorem loadProjectData_ignores_userId (u1 u2 projectId keySuffix : String)
    (fallback : SliceVal) (ls : LS) :
    loadProjectData u1 projectId keySuffix fallback ls =
    loadProjectData u2 projectId keySuffix fallback ls := rfl

/-! ## The shape of `deleteProject` -/

theorem getAllProjects_flag_false (ls : LS) (u : User) :
    getAllProjects ls u false = getProjectsForSingleUser ls u.id := by
  simp [getAllProjects]

theorem foldl_blobDeletes (ks : List String) (st : St) :
    (ks.map DelOp.blobDelete).foldl applyDelOp st = ⟨st.ls, deleteAssetAll ks st.blobs⟩ := by
  induction ks generalizing st with
  | nil => simp [deleteAssetAll]
  | cons k ks ih =>
    simp only [List.map_cons, List.foldl_cons, applyDelOp, ih]
    simp [deleteAssetAll]

theorem foldl_sliceRemoves (ks : List String) (st : St) :
    (ks.map DelOp.sliceRemove).foldl applyDelOp st = ⟨lsRemoveAll ks st.ls, st.blobs⟩ := by
  induction ks generalizing st with
  | nil => simp [lsRemoveAll]
  | cons k ks ih =>
    simp only [List.map_cons, List.foldl_cons, applyDelOp, ih]
    simp [lsRemoveAll]

theorem lsRemoveAll_get (ks : List String) (ls : LS) (k : String) :
    lsRemoveAll ks ls k = if k ∈ ks then none else ls k := by
  induction ks generalizing ls with
  | nil => simp [lsRemoveAll]
  | cons k0 ks ih =>
    show lsRemoveAll ks (lsRemove k0 ls) k = _
    rw [ih]
    by_cases h2 : k = k0
    · subst h2
      simp [lsRemove]
    · simp [lsRemove, h2]

/-- `deleteProject` in closed form: the blob deletions derived from the
pre-state, the five slice-key removals, and last the index rewrite
(reading the index of the post-removal store). -/
theorem deleteProject_eq (userId id : String) (st : St) :
    deleteProject userId id st =
      ⟨lsSet (getProjectIndexKey userId)
          (.index ((getProjectsForSingleUser
              (lsRemoveAll (sliceSuffixes.map (projectDataKey id)) st.ls) userId).filter
            (fun p => p.id ≠ id)))
          (lsRemoveAll (sliceSuffixes.map (projectDataKey id)) st.ls),
        deleteAssetAll (deleteProjectBlobKeys st userId id) st.blobs⟩ := by
  show ((deleteProjectBlobKeys st userId id).map DelOp.blobDelete ++
      sliceSuffixes.map (fun s => DelOp.sliceRemove (projectDataKey id s)) ++
      [DelOp.indexFilter userId id]).foldl applyDelOp st = _
  rw [List.foldl_append, List.foldl_append]
  have h1 : (sliceSuffixes.map (fun s => DelOp.sliceRemove (projectDataKey id s))) =
      ((sliceSuffixes.map (projectDataKey id)).map DelOp.sliceRemove) := by
    simp [List.map_map, Function.comp]
  rw [h1, foldl_blobDeletes, foldl_sliceRemoves]
  simp only [List.foldl_cons, List.foldl_nil, applyDelOp, getAllProjects_flag_false, dummyUser]

/-- After a delete, every slice read of the project falls back: the slice
keys were removed (and the only other write, the index, is not a slice
value a typed slice read accepts). -/
theorem loadProjectData_after_delete (userId id s : String) (fb : SliceVal)
    (hs : s ∈ sliceSuffixes) (L : List ProjectMetadata) (ls : LS) :
    loadProjectData userId id s fb
      (lsSet (getProjectIndexKey userId) (.index L)
        (lsRemoveAll (sliceSuffixes.map (projectDataKey id)) ls)) =
      if projectDataKey id s = getProjectIndexKey userId then .index L else fb := by
  unfold loadProjectData
  by_cases h : projectDataKey id s = getProjectIndexKey userId
  · rw [show (lsSet (getProjectIndexKey userId) (.index L)
        (lsRemoveAll (sliceSuffixes.map (projectDataKey id)) ls)) (projectDataKey id s) =
        some (.index L) from by rw [h]; exact lsSet_self _ _ _]
    simp [h]
  · rw [lsSet_other _ _ h, lsRemoveAll_get]
    have hmem : projectDataKey id s ∈ sliceSuffixes.map (projectDataKey id) :=
      List.mem_map_of_mem _ hs
    simp [h, hmem]

/-- A deleted project's four slices read back empty, so a second delete
derives no blob keys. -/
theorem deleteProjectBlobKeys_after_delete (userId id : String) (st : St) :
    deleteProjectBlobKeys (deleteProject userId id st) userId id = [] := by
  rw [deleteProject_eq]
  unfold deleteProjectBlobKeys
  rw [loadProjectData_after_delete userId id "cast" _ (by decide),
      loadProjectData_after_delete userId id "scenes" _ (by decide),
      loadProjectData_after_delete userId id "voice" _ (by decide),
      loadProjectData_after_delete userId id "motion" _ (by decide)]
  by_cases h1 : projectDataKey id "cast" = getProjectIndexKey userId <;>
    by_cases h2 : projectDataKey id "scenes" = getProjectIndexKey userId <;>
      by_cases h3 : projectDataKey id "voice" = getProjectIndexKey userId <;>
        by_cases h4 : projectDataKey id "motion" = getProjectIndexKey userId <;>
          simp [h1, h2, h3, h4]

/-! ## C7 — idempotent deletes -/

/-- C7: `deleteAsset` twice equals `deleteAsset` once; deleting an absent
key is a no-op success; and a second `deleteProject` after a completed one
changes nothing — neither index, nor slice keys, nor blobs. -/
theorem delete_idempotent :
    (∀ (k : String) (b : BlobStore), deleteAsset k (deleteAsset k b) = deleteAsset k b) ∧
    (∀ (k : String) (b : BlobStore), b k = none → deleteAsset k b = b) ∧
    (∀ (userId id : String) (st : St),
      deleteProject userId id (deleteProject userId id st) = deleteProject userId id st) := by
  refine ⟨fun k b => ?_, fun k b h => ?_, fun userId id st => ?_⟩
  · funext k'
    by_cases h : k' = k <;> simp [deleteAsset, h]
  · funext k'
    by_cases hk : k' = k
    · subst hk
      simp [deleteAsset, h]
    · simp [deleteAsset, hk]
  · have hbk := deleteProjectBlobKeys_after_delete userId id st
    rw [deleteProject_eq userId id (deleteProject userId id st), hbk,
        deleteProject_eq userId id st]
    set Ks := sliceSuffixes.map (projectDataKey id) with hKs
    set rem1 := lsRemoveAll Ks st.ls with hrem1
    set l1 := (getProjectsForSingleUser rem1 userId).filter (fun p => p.id ≠ id) with hl1
    set st1ls : LS := lsSet (getProjectIndexKey userId) (.index l1) rem1 with hst1
    show (⟨lsSet (getProjectIndexKey userId)
        (.index ((getProjectsForSingleUser (lsRemoveAll Ks st1ls) userId).filter
          (fun p => p.id ≠ id))) (lsRemoveAll Ks st1ls),
        deleteAssetAll [] (deleteAssetAll (deleteProjectBlobKeys st userId id) st.blobs)⟩ : St) =
      ⟨st1ls, deleteAssetAll (deleteProjectBlobKeys st userId id) st.blobs⟩
    have hfix : (getProjectsForSingleUser (lsRemoveAll Ks st1ls) userId).filter
        (fun p => p.id ≠ id) = l1 := by
      by_cases hidx : getProjectIndexKey userId ∈ Ks
      · have h2 : lsRemoveAll Ks st1ls (getProjectIndexKey userId) = none := by
          rw [lsRemoveAll_get]; simp [hidx]
        have h1 : rem1 (getProjectIndexKey userId) = none := by
          rw [hrem1, lsRemoveAll_get]; simp [hidx]
        rw [show getProjectsForSingleUser (lsRemoveAll Ks st1ls) userId = [] from by
          unfold getProjectsForSingleUser; rw [h2]]
        rw [hl1, show getProjectsForSingleUser rem1 userId = [] from by
          unfold getProjectsForSingleUser; rw [h1]]
      · have h2 : lsRemoveAll Ks st1ls (getProjectIndexKey userId) = some (.index l1) := by
          rw [lsRemoveAll_get]
          simp only [hidx, if_false]
          exact lsSet_self _ _ _
        rw [show getProjectsForSingleUser (lsRemoveAll Ks st1ls) userId = l1 from by
          unfold getProjectsForSingleUser; rw [h2]]
        rw [hl1, List.filter_filter]
        simp
    rw [hfix]
    have hls : lsSet (getProjectIndexKey userId) (.index l1) (lsRemoveAll Ks st1ls) = st1ls := by
      rw [hst1]
      funext k
      by_cases hik : k = getProjectIndexKey userId
      · subst hik
        rw [lsSet_self, lsSet_self]
      · rw [lsSet_other _ _ hik, lsSet_other _ _ hik, lsRemoveAll_get]
        by_cases hk : k ∈ Ks
        · simp only [hk, if_true]
          rw [hrem1, lsRemoveAll_get]
          simp [hk]
        · simp only [hk, if_false]
          rw [lsSet_other _ _ hik]
    rw [hls]
    rfl

/-- Witness for C7 at concrete inputs (the second part's absent-key
hypothesis discharged at the empty store). -/
theorem delete_idempotent_witness :
    deleteAsset "k" (deleteAsset "k" emptyBlobs) = deleteAsset "k" emptyBlobs ∧
    deleteAsset "k" emptyBlobs = emptyBlobs ∧
    deleteProject "u" "a" (deleteProject "u" "a" stA) = deleteProject "u" "a" stA :=
  ⟨delete_idempotent.1 "k" emptyBlobs,
   delete_idempotent.2.1 "k" emptyBlobs rfl,
   delete_idempotent.2.2 "u" "a" stA⟩

theorem getProjectsForSingleUser_lsSet (userId : String) (L : List ProjectMetadata)
    (ls : LS) :
    getProjectsForSingleUser (lsSet (getProjectIndexKey userId) (.index L) ls) userId = L := by
  unfold getProjectsForSingleUser
  rw [lsSet_self]

/-! ## C3 — index authority and delete ordering -/

/-- C3: after `deleteProject(userId, id)` completes, the user's own
project listing contains no entry with that id, whatever state the
project's slices and blobs were in; and the trace of `deleteProject` is
exactly the blob deletions, then the five slice-key removals, then — last
— the index rewrite, `deleteProject` being the fold of that trace. -/
theorem deleteProject_index_authority (userId id : String) (st : St) :
    (∀ u : User, u.id = userId →
      ∀ p ∈ getAllProjects (deleteProject userId id st).ls u false, p.id ≠ id) ∧
    deleteProjectOps st userId id =
      (deleteProjectBlobKeys st userId id).map DelOp.blobDelete ++
      sliceSuffixes.map (fun s => DelOp.sliceRemove (projectDataKey id s)) ++
      [DelOp.indexFilter userId id] ∧
    deleteProject userId id st = (deleteProjectOps st userId id).foldl applyDelOp st := by
  refine ⟨?_, rfl, rfl⟩
  intro u hu p hp
  rw [getAllProjects_flag_false, hu] at hp
  have hproj : (deleteProject userId id st).ls =
      lsSet (getProjectIndexKey userId)
        (.index ((getProjectsForSingleUser
            (lsRemoveAll (sliceSuffixes.map (projectDataKey id)) st.ls) userId).filter
          (fun p => p.id ≠ id)))
        (lsRemoveAll (sliceSuffixes.map (projectDataKey id)) st.ls) := by
    rw [deleteProject_eq]
  rw [hproj, getProjectsForSingleUser_lsSet] at hp
  have := List.of_mem_filter hp
  simpa using this

/-- Witness for C3: user `"u"` deletes project `"a"`; the surviving listed
project is not `"a"`. -/
theorem deleteProject_index_authority_witness : pB.id ≠ "a" :=
  (deleteProject_index_authority "u" "a" stA).1 (dummyUser "u") rfl pB (by decide)

/-! ## C8 — project listing (admin cross-user mode and normal mode) -/

theorem orderedInsert_pm_nil (a : ProjectMetadata) :
    List.orderedInsert pmGE a [] = [a] := rfl

theorem orderedInsert_pm_cons (a b : ProjectMetadata) (l : List ProjectMetadata) :
    List.orderedInsert pmGE a (b :: l) =
      if pmGE a b then a :: b :: l else b :: List.orderedInsert pmGE a l := rfl

theorem filter_orderedInsert_of_eq (t : Int) (a : ProjectMetadata)
    (l : List ProjectMetadata) (ha : a.lastModified = t) :
    (List.orderedInsert pmGE a l).filter (fun p => decide (p.lastModified = t)) =
      a :: l.filter (fun p => decide (p.lastModified = t)) := by
  induction l with
  | nil => simp [orderedInsert_pm_nil, ha]
  | cons b bs ih =>
    by_cases hr : pmGE a b
    · rw [orderedInsert_pm_cons, if_pos hr]
      simp [ha]
    · have hb : b.lastModified ≠ t := by
        unfold pmGE at hr
        push_neg at hr
        omega
      rw [orderedInsert_pm_cons, if_neg hr]
      simp [hb, ih]

theorem filter_orderedInsert_of_ne (t : Int) (a : ProjectMetadata)
    (l : List ProjectMetadata) (ha : a.lastModified ≠ t) :
    (List.orderedInsert pmGE a l).filter (fun p => decide (p.lastModified = t)) =
      l.filter (fun p => decide (p.lastModified = t)) := by
  induction l with
  | nil => simp [orderedInsert_pm_nil, ha]
  | cons b bs ih =>
    by_cases hr : pmGE a b
    · rw [orderedInsert_pm_cons, if_pos hr]
      simp [ha]
    · rw [orderedInsert_pm_cons, if_neg hr]
      by_cases hb : b.lastModified = t <;> simp [hb, ih]

theorem filter_insertionSort (t : Int) (l : List ProjectMetadata) :
    (List.insertionSort pmGE l).filter (fun p => decide (p.lastModified = t)) =
      l.filter (fun p => decide (p.lastModified = t)) := by
  induction l with
  | nil => simp
  | cons x xs ih =>
    show (List.orderedInsert pmGE x (List.insertionSort pmGE xs)).filter _ = _
    by_cases hx : x.lastModified = t
    · rw [filter_orderedInsert_of_eq t x _ hx, ih]
      simp [hx]
    · rw [filter_orderedInsert_of_ne t x _ hx, ih]
      simp [hx]

/-- C8: in admin cross-user mode the listing is a permutation of the
decorated concatenation of every registered user's index, sorted by
`lastModified` descending, and stable — for every timestamp the entries
carrying it appear in their original relative order; in normal mode
(non-admin user, or the flag unset) the listing is exactly the user's own
undecorated index. -/
theorem getAllProjects_listing (ls : LS) (u : User) :
    (u.role = "admin" →
      List.Perm (getAllProjects ls u true) (adminConcat ls) ∧
      (getAllProjects ls u true).Sorted pmGE ∧
      (∀ t : Int, (getAllProjects ls u true).filter (fun p => decide (p.lastModified = t)) =
        (adminConcat ls).filter (fun p => decide (p.lastModified = t)))) ∧
    (∀ b : Bool, u.role ≠ "admin" ∨ b = false →
      getAllProjects ls u b = getProjectsForSingleUser ls u.id) := by
  constructor
  · intro hrole
    have hdef : getAllProjects ls u true = List.insertionSort pmGE (adminConcat ls) := by
      simp [getAllProjects, hrole, sortByLastModifiedDesc]
    rw [hdef]
    exact ⟨List.perm_insertionSort _ _, List.sorted_insertionSort _ _,
      fun t => filter_insertionSort t _⟩
  · intro b hb
    rcases hb with h | h
    · simp [getAllProjects, h]
    · subst h
      exact getAllProjects_flag_false ls u

/-- Witness for C8: a two-user store listed by an admin (cross-user mode)
and by a regular user (normal mode). -/
theorem getAllProjects_listing_witness :
    List.Perm (getAllProjects lsMulti uAdmin true) (adminConcat lsMulti) ∧
    (getAllProjects lsMulti uAdmin true).Sorted pmGE ∧
    getAllProjects lsMulti uOne false = getProjectsForSingleUser lsMulti "u1" := by
  refine ⟨((getAllProjects_listing lsMulti uAdmin).1 rfl).1,
    ((getAllProjects_listing lsMulti uAdmin).1 rfl).2.1, ?_⟩
  exact (getAllProjects_listing lsMulti uOne).2 false (Or.inr rfl)

/-! ## C1 — per-entity dehydrate/hydrate round trip (corrected)

As stated over *every* non-null binary string the claim fails: an empty
string is non-null yet falsy in JS, so the save path skips the blob write
and the hydrated entity comes back with a `null` field
(`dehydrate_hydrate_roundtrip_counterexample`).  The load path further
guards scene fetches by `!scene.loading`, line fetches by a truthy
`l.id`, and job fetches by `status === 'completed'`.  The amended round
trip holds under those guards. -/

/-- C1 counterexample: a cast member whose binary field is the *non-null*
empty string.  The save path (`c.image ? saveAsset(...) : ...`) treats it
as falsy and writes no blob; hydration then leaves the field `null`, and
the restored entity is not field-for-field equal to the original. -/
theorem dehydrate_hydrate_roundtrip_counterexample :
    saveCastEntity envFree [] emptyBlobs cEmptyImage =
      .ok (cEmptyImageMeta, emptyBlobs, []) ∧
    hydrateCastMember emptyBlobs cEmptyImageMeta ≠ cEmptyImage := by
  exact ⟨rfl, by decide⟩

/-- C1 (amended): for each of the four entity kinds, the auto-save
dehydration followed by the load-path hydration restores a
field-for-field equal entity, provided the blob store is not mutated in
between and: the binary payload is non-null *and non-empty*, its
change-detection signature is not already recorded, the quota check
passes; additionally scenes must not be `loading`, script lines must have
a non-empty id, and video jobs must be `completed` (the code only fetches
under those guards). -/
theorem dehydrate_hydrate_roundtrip
    (env : QuotaEnv) (sigs : List String) (b : BlobStore)
    (c : CastMember) (s : GeneratedScene) (l : ScriptLine) (j : VideoJob)
    (vc vs vl vj : String)
    (hc : c.image = some vc) (hvc : vc ≠ "")
    (hcs : castSig c.id vc ∉ sigs) (hcq : checkQuotaSafe env vc.length = true)
    (hs : s.imageUrl = some vs) (hvs : vs ≠ "")
    (hss : sceneSig s.id vs ∉ sigs) (hsq : checkQuotaSafe env vs.length = true)
    (hsl : s.loading = false)
    (hl : l.audioUrl = some vl) (hvl : vl ≠ "")
    (hls : voiceSig l.id vl ∉ sigs) (hlq : checkQuotaSafe env vl.length = true)
    (hlid : l.id ≠ "")
    (hj : j.videoUrl = some vj) (hvj : vj ≠ "")
    (hjs : videoSig j.id vj ∉ sigs) (hjq : checkQuotaSafe env vj.length = true)
    (hjst : j.status = .completed) :
    (saveCastEntity env sigs b c =
        .ok ({ c with image := none }, blobSet (castKey c.id) vc b,
          castSig c.id vc :: sigs) ∧
      hydrateCastMember (blobSet (castKey c.id) vc b) { c with image := none } = c) ∧
    (saveSceneEntity env sigs b s =
        .ok ({ s with imageUrl := none }, blobSet (sceneKey s.id) vs b,
          sceneSig s.id vs :: sigs) ∧
      hydrateScene (blobSet (sceneKey s.id) vs b) { s with imageUrl := none } = s) ∧
    (saveLineEntity env sigs b l =
        .ok ({ l with audioUrl := none }, blobSet (voiceKey l.id) vl b,
          voiceSig l.id vl :: sigs) ∧
      hydrateLine (blobSet (voiceKey l.id) vl b) { l with audioUrl := none } = l) ∧
    (saveJobEntity env sigs b j =
        .ok ({ j with videoUrl := none }, blobSet (videoKey j.id) vj b,
          videoSig j.id vj :: sigs) ∧
      hydrateJob (blobSet (videoKey j.id) vj b) { j with videoUrl := none } = j) := by
  refine ⟨⟨?_, ?_⟩, ⟨?_, ?_⟩, ⟨?_, ?_⟩, ⟨?_, ?_⟩⟩
  · simp [saveCastEntity, hc, hvc, hcs, saveAsset, hcq]
  · cases c with
    | mk id label role image mimeType =>
      cases hc
      simp [hydrateCastMember, strTruthy, getAsset_blobSet_self, hvc]
  · simp [saveSceneEntity, hs, hvs, hss, saveAsset, hsq]
  · cases s with
    | mk id prompt imageUrl loading error timestamp ci cost =>
      cases hs
      cases hsl
      simp [hydrateScene, strTruthy, getAsset_blobSet_self, hvs]
  · simp [saveLineEntity, hl, hvl, hls, saveAsset, hlq]
  · cases l with
    | mk id speaker text audioUrl isLoading voiceName matched cost =>
      cases hl
      simp [hydrateLine, strTruthy, getAsset_blobSet_self, hvl, hlid]
  · simp [saveJobEntity, hj, hvj, hjs, saveAsset, hjq, hjst]
  · cases j with
    | mk id src srcImg prompt videoUrl status error cost =>
      cases hj
      cases hjst
      simp [hydrateJob, strTruthy, getAsset_blobSet_self, hvj]

/-- Witness for C1 (amended) at concrete entities of all four kinds. -/
theorem dehydrate_hydrate_roundtrip_witness :
    (saveCastEntity envFree [] emptyBlobs cW =
        .ok ({ cW with image := none }, blobSet (castKey cW.id) "IMGDATA" emptyBlobs,
          castSig cW.id "IMGDATA" :: []) ∧
      hydrateCastMember (blobSet (castKey cW.id) "IMGDATA" emptyBlobs)
        { cW with image := none } = cW) ∧
    (saveSceneEntity envFree [] emptyBlobs sW =
        .ok ({ sW with imageUrl := none }, blobSet (sceneKey sW.id) "SCNDATA" emptyBlobs,
          sceneSig sW.id "SCNDATA" :: []) ∧
      hydrateScene (blobSet (sceneKey sW.id) "SCNDATA" emptyBlobs)
        { sW with imageUrl := none } = sW) ∧
    (saveLineEntity envFree [] emptyBlobs lW =
        .ok ({ lW with audioUrl := none }, blobSet (voiceKey lW.id) "AUDDATA" emptyBlobs,
          voiceSig lW.id "AUDDATA" :: []) ∧
      hydrateLine (blobSet (voiceKey lW.id) "AUDDATA" emptyBlobs)
        { lW with audioUrl := none } = lW) ∧
    (saveJobEntity envFree [] emptyBlobs jW =
        .ok ({ jW with videoUrl := none }, blobSet (videoKey jW.id) "VIDDATA" emptyBlobs,
          videoSig jW.id "VIDDATA" :: []) ∧
      hydrateJob (blobSet (videoKey jW.id) "VIDDATA" emptyBlobs)
        { jW with videoUrl := none } = jW) :=
  dehydrate_hydrate_roundtrip envFree [] emptyBlobs cW sW lW jW
    "IMGDATA" "SCNDATA" "AUDDATA" "VIDDATA"
    rfl (by decide) (by simp) rfl
    rfl (by decide) (by simp) rfl rfl
    rfl (by decide) (by simp) rfl (by decide)
    rfl (by decide) (by simp) rfl rfl

/-! ## Import lemmas -/

theorem getProjectsForSingleUser_lsSet_other (userId k : String) (v : SliceVal)
    (ls : LS) (h : getProjectIndexKey userId ≠ k) :
    getProjectsForSingleUser (lsSet k v ls) userId = getProjectsForSingleUser ls userId := by
  unfold getProjectsForSingleUser
  rw [lsSet_other _ _ h]

/-- A slice write leaves the index list unchanged when its head is the
project being touched and already carries the written timestamp (the
state of affairs during an import, whose index head is the fresh
project). -/
theorem saveProjectData_keeps_index (userId pid suffix : String) (v : SliceVal)
    (now : Int) (ls : LS) (m : ProjectMetadata) (rest : List ProjectMetadata)
    (hkey : getProjectIndexKey userId ≠ projectDataKey pid suffix)
    (hhead : getProjectsForSingleUser ls userId = m :: rest)
    (hid : m.id = pid) (hlm : m.lastModified = now) :
    getProjectsForSingleUser (saveProjectData userId pid suffix v now ls) userId =
      m :: rest := by
  unfold saveProjectData updateProjectMeta
  rw [getAllProjects_flag_false]
  simp only [dummyUser]
  rw [getProjectsForSingleUser_lsSet_other userId _ _ _ hkey, hhead]
  have hany : (m :: rest).any (fun p => p.id = pid) = true := by
    simp [hid]
  rw [if_pos hany]
  have hupd : updateFirstById pid (fun p => { p with lastModified := now }) (m :: rest) =
      m :: rest := by
    unfold updateFirstById
    rw [if_pos hid]
    cases m with
    | mk id title lastModified sceneCount previewImage ownerEmail ownerId =>
      cases hlm
      rfl
  rw [hupd, getProjectsForSingleUser_lsSet]

/-- Under an always-passing quota environment the blob fan-out never
fails and is the pure fold of its writes. -/
theorem writeEntityBlobs_ok {α : Type} (env : QuotaEnv) (key : α → String)
    (bin : α → Option String) (hq : quotaAlwaysOk env) :
    ∀ (xs : List α) (b : BlobStore),
      writeEntityBlobs env key bin xs b = (applyEntityBlobs key bin xs b, none) := by
  intro xs
  induction xs with
  | nil => intro b; rfl
  | cons x xs ih =>
    intro b
    unfold writeEntityBlobs applyEntityBlobs
    cases hbx : bin x with
    | none => exact ih b
    | some v =>
      by_cases hv : v = ""
      · simp only [hv, if_pos rfl]
        exact ih b
      · have hsa : saveAsset env (key x) v b = .ok (blobSet (key x) v b) := by
          simp [saveAsset, hq v.length]
        simp only [if_neg hv, hsa]
        exact ih (blobSet (key x) v b)

/-! ## C5 — import validation -/

/-- C5: a document lacking `metadata`, `cast` or `scenes` makes
`importProject` fail before any write — index, slice keys and blob store
are untouched (the state comes back identical).  With those sections
present, the new project is prepended to the user's index carrying the
freshly allocated id (distinct from the source id, `crypto.randomUUID()`
freshness being the `newId ≠ md.id` hypothesis) and the source title with
the `" (Imported)"` marker; on success the returned summary is that
entry.  (The failure surfaces as the one error message import's outer
`catch` rethrows, the spec's `InvalidFormat`.) -/
theorem importProject_validation (env : QuotaEnv) (userId newId : String) (now : Int)
    (doc : ImportDoc) (st : St) :
    (doc.metadata = none ∨ doc.cast = none ∨ doc.scenes = none →
      importProject env userId newId now doc st = (.error importFailMsg, st)) ∧
    (∀ md cast scenes, doc.metadata = some md → doc.cast = some cast →
      doc.scenes = some scenes →
      newId ≠ md.id →
      getProjectIndexKey userId ≠ projectDataKey newId "cast" →
      getProjectIndexKey userId ≠ projectDataKey newId "scenes" →
      getProjectIndexKey userId ≠ projectDataKey newId "voice" →
      getProjectIndexKey userId ≠ projectDataKey newId "motion" →
      getProjectsForSingleUser (importProject env userId newId now doc st).2.ls userId =
        { md with id := newId, title := md.title ++ " (Imported)", lastModified := now } ::
          getAllProjects st.ls (dummyUser userId) false ∧
      ({ md with id := newId, title := md.title ++ " (Imported)", lastModified := now } : ProjectMetadata).id ≠ md.id ∧
      (∀ m, (importProject env userId newId now doc st).1 = .ok m →
        m = { md with id := newId, title := md.title ++ " (Imported)", lastModified := now })) := by
  obtain ⟨dver, dmd, dca, dsc, dvo, dmo⟩ := doc
  constructor
  · intro h
    rcases dmd with _ | md
    · rfl
    · rcases dca with _ | ca
      · rfl
      · rcases dsc with _ | sc
        · rfl
        · simp at h
  · intro md cast scenes hmd hca hsc hfresh hk1 hk2 hk3 hk4
    cases hmd
    cases hca
    cases hsc
    set newMeta : ProjectMetadata :=
      { md with id := newId, title := md.title ++ " (Imported)", lastModified := now }
      with hnewMeta
    set old := getAllProjects st.ls (dummyUser userId) false with hold
    set ls0 := lsSet (getProjectIndexKey userId) (.index (newMeta :: old)) st.ls with hls0
    set ls1 := saveProjectData userId newId "cast"
      (.castV (cast.map fun c => { c with image := none })) now ls0 with hls1
    have h0 : getProjectsForSingleUser ls0 userId = newMeta :: old := by
      rw [hls0, getProjectsForSingleUser_lsSet]
    have h1 : getProjectsForSingleUser ls1 userId = newMeta :: old := by
      rw [hls1]
      exact saveProjectData_keeps_index userId newId "cast" _ now ls0 newMeta old hk1 h0 rfl rfl
    set ls2 := saveProjectData userId newId "scenes"
      (.scenesV (scenes.map fun s => { s with imageUrl := none })) now ls1 with hls2
    have h2 : getProjectsForSingleUser ls2 userId = newMeta :: old := by
      rw [hls2]
      exact saveProjectData_keeps_index userId newId "scenes" _ now ls1 newMeta old hk2 h1 rfl rfl
    refine ⟨?_, by simpa [hnewMeta] using hfresh, ?_⟩
    · show getProjectsForSingleUser
        (importProjectBody env userId newId now md cast scenes dvo dmo st).2.ls userId =
        newMeta :: old
      unfold importProjectBody
      rcases hw1 : writeCastBlobs env cast st.blobs with ⟨b1, e1⟩
      rcases e1 with _ | e1
      · dsimp only
        rcases hw2 : writeSceneBlobs env scenes b1 with ⟨b2, e2⟩
        rcases e2 with _ | e2
        · dsimp only
          rcases dvo with _ | vo
          · exact h2
          · set ls3 := saveProjectData userId newId "voice"
              (.voiceV { vo with lines := vo.lines.map fun l => { l with audioUrl := none } })
              now ls2 with hls3
            have h3 : getProjectsForSingleUser ls3 userId = newMeta :: old := by
              rw [hls3]
              exact saveProjectData_keeps_index userId newId "voice" _ now ls2 newMeta old
                hk3 h2 rfl rfl
            dsimp only
            rcases hw3 : writeVoiceBlobs env vo.lines b2 with ⟨b3, e3⟩
            rcases e3 with _ | e3
            · dsimp only
              rcases dmo with _ | ms
              · exact h3
              · set ls4 := saveProjectData userId newId "motion"
                  (.motionV (ms.map fun m => { m with videoUrl := none })) now ls3 with hls4
                have h4 : getProjectsForSingleUser ls4 userId = newMeta :: old := by
                  rw [hls4]
                  exact saveProjectData_keeps_index userId newId "motion" _ now ls3 newMeta old
                    hk4 h3 rfl rfl
                dsimp only
                rcases hw4 : writeMotionBlobs env ms b3 with ⟨b4, e4⟩
                rcases e4 with _ | e4
                · exact h4
                · exact h4
            · exact h3
        · exact h2
      · exact h1
    · intro m hm
      replace hm : (importProjectBody env userId newId now md cast scenes dvo dmo st).1 =
          .ok m := hm
      unfold importProjectBody at hm
      rcases hw1 : writeCastBlobs env cast st.blobs with ⟨b1, e1⟩
      rw [hw1] at hm
      rcases e1 with _ | e1
      · dsimp only at hm
        rcases hw2 : writeSceneBlobs env scenes b1 with ⟨b2, e2⟩
        rw [hw2] at hm
        rcases e2 with _ | e2
        · dsimp only at hm
          rcases dvo with _ | vo
          · simp at hm
          · dsimp only at hm
            rcases hw3 : writeVoiceBlobs env vo.lines b2 with ⟨b3, e3⟩
            rw [hw3] at hm
            rcases e3 with _ | e3
            · dsimp only at hm
              rcases dmo with _ | ms
              · simp at hm
              · dsimp only at hm
                rcases hw4 : writeMotionBlobs env ms b3 with ⟨b4, e4⟩
                rw [hw4] at hm
                rcases e4 with _ | e4
                · simpa [hnewMeta] using hm.symm
                · simp at hm
            · simp at hm
        · simp at hm
      · simp at hm

/-- Witness for C5: importing a document without its `cast` section leaves
the empty state untouched; importing a complete document prepends the
renamed project under the fresh id to the user's index. -/
theorem importProject_validation_witness :
    importProject envFree "u" "p2" 5 docNoCast st0 = (.error importFailMsg, st0) ∧
    getProjectsForSingleUser (importProject envFree "u" "p2" 5 docFull st0).2.ls "u" =
      { mdW with id := "p2", title := mdW.title ++ " (Imported)", lastModified := 5 } ::
        getAllProjects st0.ls (dummyUser "u") false := by
  constructor
  · exact (importProject_validation envFree "u" "p2" 5 docNoCast st0).1 (Or.inr (Or.inl rfl))
  · exact ((importProject_validation envFree "u" "p2" 5 docFull st0).2 mdW [] [] rfl rfl rfl
      (by decide) (by decide) (by decide) (by decide) (by decide)).1

/-! ## C6 — tolerance of missing optional sections (corrected)

The claim fails on the code: `importProject` dereferences
`data.voice.lines` (`part_002:204`) and `data.motion.map`
(`part_002:209`) unconditionally, so a document *missing* the optional
`voice` (or `motion`) section throws inside the `try`, and the call fails
with the generic import error (after the index and the cast/scenes slices
were already written).  Unknown extra fields are dropped by parsing and
are harmless; the amended claim therefore requires the `voice` and
`motion` sections to be present. -/

/-- C6 counterexample: a document with the required `metadata`, `cast`
and `scenes` sections but no optional `voice` section makes
`importProject` fail. -/
theorem importProject_optional_counterexample :
    (importProject envFree "u" "p2" 5 docNoVoice st0).1 = .error importFailMsg := rfl

/-- C6 (amended): when the required sections *and* the `voice` and
`motion` sections are present, `importProject` succeeds (quota passing)
and returns the renamed summary under the fresh id, whatever extra
content the sections carry. -/
theorem importProject_succeeds_with_all_sections
    (env : QuotaEnv) (userId newId : String) (now : Int) (doc : ImportDoc) (st : St)
    (md : ProjectMetadata) (cast : List CastMember) (scenes : List GeneratedScene)
    (vo : VoiceData) (ms : List VideoJob)
    (hq : quotaAlwaysOk env)
    (hmd : doc.metadata = some md) (hca : doc.cast = some cast)
    (hsc : doc.scenes = some scenes) (hvo : doc.voice = some vo)
    (hmo : doc.motion = some ms) :
    (importProject env userId newId now doc st).1 =
      .ok { md with id := newId, title := md.title ++ " (Imported)", lastModified := now } := by
  obtain ⟨dver, dmd, dca, dsc, dvo, dmo⟩ := doc
  cases hmd
  cases hca
  cases hsc
  cases hvo
  cases hmo
  have hwc : ∀ b, writeCastBlobs env cast b =
      (applyEntityBlobs (fun c => castKey c.id) (fun c => c.image) cast b, none) :=
    fun b => writeEntityBlobs_ok env _ _ hq cast b
  have hws : ∀ b, writeSceneBlobs env scenes b =
      (applyEntityBlobs (fun s => sceneKey s.id) (fun s => s.imageUrl) scenes b, none) :=
    fun b => writeEntityBlobs_ok env _ _ hq scenes b
  have hwv : ∀ b, writeVoiceBlobs env vo.lines b =
      (applyEntityBlobs (fun l => voiceKey l.id) (fun l => l.audioUrl) vo.lines b, none) :=
    fun b => writeEntityBlobs_ok env _ _ hq vo.lines b
  have hwm : ∀ b, writeMotionBlobs env ms b =
      (applyEntityBlobs (fun m => videoKey m.id) (fun m => m.videoUrl) ms b, none) :=
    fun b => writeEntityBlobs_ok env _ _ hq ms b
  show (importProjectBody env userId newId now md cast scenes (some vo) (some ms) st).1 = _
  unfold importProjectBody
  rw [hwc]
  dsimp only
  rw [hws]
  dsimp only
  rw [hwv]
  dsimp only
  rw [hwm]

/-- Witness for C6 (amended): the complete document imports successfully
into the empty state. -/
theorem importProject_succeeds_witness :
    (importProject envFree "u" "p2" 5 docFull st0).1 =
      .ok { mdW with id := "p2", title := mdW.title ++ " (Imported)", lastModified := 5 } :=
  importProject_succeeds_with_all_sections envFree "u" "p2" 5 docFull st0
    mdW [] [] ⟨"", [], []⟩ [] (fun _ => rfl) rfl rfl rfl rfl rfl

/-! ## Blob-key namespacing

The four derived-key families are pairwise disjoint (distinct prefixes)
and each is injective in the entity id — the namespacing invariant §5 of
the spec calls correctness-critical. -/

theorem castKey_data (a : String) : (castKey a).data = 'c' :: 'a' :: 's' :: 't' :: '_' :: a.data := by
  show ("cast_" ++ a).data = _
  rw [String.data_append]
  rfl

theorem sceneKey_data (a : String) : (sceneKey a).data = 's' :: 'c' :: 'e' :: 'n' :: 'e' :: '_' :: a.data := by
  show ("scene_" ++ a).data = _
  rw [String.data_append]
  rfl

theorem voiceKey_data (a : String) : (voiceKey a).data = 'v' :: 'o' :: 'i' :: 'c' :: 'e' :: '_' :: a.data := by
  show ("voice_" ++ a).data = _
  rw [String.data_append]
  rfl

theorem videoKey_data (a : String) : (videoKey a).data = 'v' :: 'i' :: 'd' :: 'e' :: 'o' :: '_' :: a.data := by
  show ("video_" ++ a).data = _
  rw [String.data_append]
  rfl

theorem castKey_injective : Function.Injective castKey := by
  intro a b h
  have h2 := congrArg String.data h
  rw [castKey_data, castKey_data] at h2
  simp at h2
  exact String.ext h2

theorem sceneKey_injective : Function.Injective sceneKey := by
  intro a b h
  have h2 := congrArg String.data h
  rw [sceneKey_data, sceneKey_data] at h2
  simp at h2
  exact String.ext h2

theorem voiceKey_injective : Function.Injective voiceKey := by
  intro a b h
  have h2 := congrArg String.data h
  rw [voiceKey_data, voiceKey_data] at h2
  simp at h2
  exact String.ext h2

theorem videoKey_injective : Function.Injective videoKey := by
  intro a b h
  have h2 := congrArg String.data h
  rw [videoKey_data, videoKey_data] at h2
  simp at h2
  exact String.ext h2

theorem castKey_ne_sceneKey (a b : String) : castKey a ≠ sceneKey b := by
  intro h
  have h2 := congrArg String.data h
  rw [castKey_data, sceneKey_data] at h2
  simp at h2

theorem castKey_ne_voiceKey (a b : String) : castKey a ≠ voiceKey b := by
  intro h
  have h2 := congrArg String.data h
  rw [castKey_data, voiceKey_data] at h2
  simp at h2

theorem castKey_ne_videoKey (a b : String) : castKey a ≠ videoKey b := by
  intro h
  have h2 := congrArg String.data h
  rw [castKey_data, videoKey_data] at h2
  simp at h2

theorem sceneKey_ne_voiceKey (a b : String) : sceneKey a ≠ voiceKey b := by
  intro h
  have h2 := congrArg String.data h
  rw [sceneKey_data, voiceKey_data] at h2
  simp at h2

theorem sceneKey_ne_videoKey (a b : String) : sceneKey a ≠ videoKey b := by
  intro h
  have h2 := congrArg String.data h
  rw [sceneKey_data, videoKey_data] at h2
  simp at h2

theorem voiceKey_ne_videoKey (a b : String) : voiceKey a ≠ videoKey b := by
  intro h
  have h2 := congrArg String.data h
  rw [voiceKey_data, videoKey_data] at h2
  simp at h2

theorem projectDataKey_suffix_inj {p a b : String} (h : a ≠ b) :
    projectDataKey p a ≠ projectDataKey p b := by
  intro he
  apply h
  rw [show projectDataKey p a = ("cosmo_project_" ++ p ++ "_") ++ a from rfl,
      show projectDataKey p b = ("cosmo_project_" ++ p ++ "_") ++ b from rfl] at he
  have h3 := congrArg String.data he
  rw [String.data_append, String.data_append] at h3
  exact String.ext (List.append_cancel_left h3)

/-! ## Read-through lemmas for slice and blob writes -/

theorem getAsset_congr {b1 b2 : BlobStore} (k : String) (h : b1 k = b2 k) :
    getAsset b1 k = getAsset b2 k := by
  unfold getAsset
  rw [h]

theorem getAsset_ne_some_empty (b : BlobStore) (k : String) : getAsset b k ≠ some "" := by
  unfold getAsset
  cases hb : b k with
  | none => simp
  | some v => by_cases hv : v = "" <;> simp [hv]

theorem updateProjectMeta_get_other (userId id : String)
    (f : ProjectMetadata → ProjectMetadata) (now : Int) (ls : LS) (k : String)
    (hk : k ≠ getProjectIndexKey userId) :
    updateProjectMeta userId id f now ls k = ls k := by
  unfold updateProjectMeta
  split
  · exact lsSet_other _ _ hk
  · rfl

theorem saveProjectData_get_other (userId pid suffix : String) (v : SliceVal)
    (now : Int) (ls : LS) (k : String)
    (hk : k ≠ getProjectIndexKey userId) (hk2 : k ≠ projectDataKey pid suffix) :
    saveProjectData userId pid suffix v now ls k = ls k := by
  unfold saveProjectData
  rw [updateProjectMeta_get_other _ _ _ _ _ _ hk, lsSet_other _ _ hk2]

theorem saveProjectData_get_self (userId pid suffix : String) (v : SliceVal)
    (now : Int) (ls : LS) (hk : projectDataKey pid suffix ≠ getProjectIndexKey userId) :
    saveProjectData userId pid suffix v now ls (projectDataKey pid suffix) = some v := by
  unfold saveProjectData
  rw [updateProjectMeta_get_other _ _ _ _ _ _ hk, lsSet_self]

theorem applyEntityBlobs_get_notmem {α : Type} (key : α → String)
    (bin : α → Option String) (xs : List α) (b : BlobStore) (k : String)
    (hk : ∀ x ∈ xs, key x ≠ k) :
    applyEntityBlobs key bin xs b k = b k := by
  induction xs generalizing b with
  | nil => rfl
  | cons x xs ih =>
    have htail : ∀ y ∈ xs, key y ≠ k := fun y hy => hk y (List.mem_cons_of_mem _ hy)
    unfold applyEntityBlobs
    cases hbx : bin x with
    | none => exact ih b htail
    | some v =>
      by_cases hv : v = ""
      · simp only [hv, if_pos rfl]
        exact ih b htail
      · simp only [if_neg hv]
        rw [ih _ htail]
        exact blobSet_other _ _ (Ne.symm (hk x (List.mem_cons_self _ _)))

theorem applyEntityBlobs_get_mem {α : Type} (key : α → String)
    (bin : α → Option String) (xs : List α) (b : BlobStore) (x : α)
    (hmem : x ∈ xs) (hnodup : (xs.map key).Nodup) :
    applyEntityBlobs key bin xs b (key x) =
      match bin x with
      | some v => if v = "" then b (key x) else some v
      | none => b (key x) := by
  induction xs generalizing b with
  | nil => cases hmem
  | cons y ys ih =>
    have hhead := (List.nodup_cons.mp hnodup).1
    have htail := (List.nodup_cons.mp hnodup).2
    rcases List.mem_cons.mp hmem with rfl | hmem2
    · have hrest : ∀ z ∈ ys, key z ≠ key x := by
        intro z hz he
        exact hhead (by rw [← he]; exact List.mem_map_of_mem key hz)
      unfold applyEntityBlobs
      cases hbx : bin x with
      | none =>
        dsimp only
        rw [applyEntityBlobs_get_notmem key bin ys b _ hrest]
      | some v =>
        by_cases hv : v = ""
        · simp only [hv, eq_self_iff_true, if_true]
          try dsimp only
          rw [applyEntityBlobs_get_notmem key bin ys b _ hrest]
        · simp only [if_neg hv]
          try dsimp only
          rw [applyEntityBlobs_get_notmem key bin ys _ _ hrest, blobSet_self]
    · have hxy : key y ≠ key x := by
        intro he
        exact hhead (by rw [he]; exact List.mem_map_of_mem key hmem2)
      unfold applyEntityBlobs
      cases hby : bin y with
      | none =>
        dsimp only
        exact ih b hmem2 htail
      | some v =>
        by_cases hv : v = ""
        · simp only [hv, eq_self_iff_true, if_true]
          try dsimp only
          exact ih b hmem2 htail
        · simp only [if_neg hv]
          try dsimp only
          rw [ih _ hmem2 htail]
          have hbs : blobSet (key y) v b (key x) = b (key x) :=
            blobSet_other _ _ (Ne.symm hxy)
          cases bin x with
          | none => simp [hbs]
          | some w =>
            by_cases hw : w = "" <;> simp [hw, hbs]

/-! ## Per-entity facts about exported content -/

theorem exportHydrateCast_image_none {b : BlobStore} {cs : List CastMember}
    {c : CastMember} (hc : c ∈ cs.map (exportHydrateCast b)) (hnone : c.image = none) :
    getAsset b (castKey c.id) = none := by
  rcases List.mem_map.mp hc with ⟨c0, _, rfl⟩
  unfold exportHydrateCast at hnone ⊢
  cases hg : getAsset b (castKey c0.id) with
  | some img =>
    rw [hg] at hnone
    simp at hnone
  | none =>
    rw [hg] at hnone ⊢

theorem exportHydrateScene_image_none {b : BlobStore} {ss : List GeneratedScene}
    {s : GeneratedScene} (hs : s ∈ ss.map (exportHydrateScene b))
    (hnone : s.imageUrl = none) :
    getAsset b (sceneKey s.id) = none := by
  rcases List.mem_map.mp hs with ⟨s0, _, rfl⟩
  unfold exportHydrateScene at hnone ⊢
  cases hg : getAsset b (sceneKey s0.id) with
  | some img =>
    rw [hg] at hnone
    simp at hnone
  | none =>
    rw [hg] at hnone ⊢

theorem exportHydrateLine_audio_none {b : BlobStore} {ls0 : List ScriptLine}
    {l : ScriptLine} (hl : l ∈ ls0.map (exportHydrateLine b)) (hnone : l.audioUrl = none) :
    getAsset b (voiceKey l.id) = none := by
  rcases List.mem_map.mp hl with ⟨l0, _, rfl⟩
  unfold exportHydrateLine at hnone ⊢
  by_cases ht : strTruthy l0.audioUrl
  · rw [if_pos ht] at hnone ⊢
    rw [hnone] at ht
    simp [strTruthy] at ht
  · rw [if_neg ht] at hnone ⊢
    exact hnone

theorem exportHydrateLine_audio_ne_empty {b : BlobStore} {ls0 : List ScriptLine}
    {l : ScriptLine} (hl : l ∈ ls0.map (exportHydrateLine b)) :
    l.audioUrl ≠ some "" := by
  rcases List.mem_map.mp hl with ⟨l0, _, rfl⟩
  unfold exportHydrateLine
  by_cases ht : strTruthy l0.audioUrl
  · rw [if_pos ht]
    intro he
    rw [he] at ht
    simp [strTruthy] at ht
  · rw [if_neg ht]
    intro he
    exact getAsset_ne_some_empty b (voiceKey l0.id) he

theorem exportHydrateJob_video_none {b : BlobStore} {ms : List VideoJob}
    {m : VideoJob} (hm : m ∈ ms.map (exportHydrateJob b)) (hnone : m.videoUrl = none) :
    getAsset b (videoKey m.id) = none := by
  rcases List.mem_map.mp hm with ⟨m0, _, rfl⟩
  unfold exportHydrateJob at hnone ⊢
  by_cases ht : strTruthy m0.videoUrl
  · rw [if_pos ht] at hnone ⊢
    rw [hnone] at ht
    simp [strTruthy] at ht
  · rw [if_neg ht] at hnone ⊢
    exact hnone

theorem exportHydrateJob_video_ne_empty {b : BlobStore} {ms : List VideoJob}
    {m : VideoJob} (hm : m ∈ ms.map (exportHydrateJob b)) :
    m.videoUrl ≠ some "" := by
  rcases List.mem_map.mp hm with ⟨m0, _, rfl⟩
  unfold exportHydrateJob
  by_cases ht : strTruthy m0.videoUrl
  · rw [if_pos ht]
    intro he
    rw [he] at ht
    simp [strTruthy] at ht
  · rw [if_neg ht]
    intro he
    exact getAsset_ne_some_empty b (videoKey m0.id) he

/-! ## Per-entity import round trips -/

theorem roundtrip_cast (bsrc b4 : BlobStore) (c : CastMember)
    (hb : b4 (castKey c.id) =
      match c.image with
      | some v => if v = "" then bsrc (castKey c.id) else some v
      | none => bsrc (castKey c.id))
    (hwf : c.image ≠ some "")
    (hnone : c.image = none → getAsset bsrc (castKey c.id) = none) :
    exportHydrateCast b4 { c with image := none } = c := by
  cases c with
  | mk id label role image mimeType =>
    unfold exportHydrateCast
    cases image with
    | none =>
      have h0 := hnone rfl
      have h4 : getAsset b4 (castKey id) = none := by
        rw [getAsset_congr _ hb]
        exact h0
      rw [h4]
    | some v =>
      have hv : v ≠ "" := by
        intro he
        exact hwf (by rw [he])
      dsimp only at hb
      rw [if_neg hv] at hb
      have h4 : getAsset b4 (castKey id) = some v := by
        unfold getAsset
        rw [hb]
        dsimp only
        rw [if_neg hv]
      rw [h4]

theorem roundtrip_scene (bsrc b4 : BlobStore) (s : GeneratedScene)
    (hb : b4 (sceneKey s.id) =
      match s.imageUrl with
      | some v => if v = "" then bsrc (sceneKey s.id) else some v
      | none => bsrc (sceneKey s.id))
    (hwf : s.imageUrl ≠ some "")
    (hnone : s.imageUrl = none → getAsset bsrc (sceneKey s.id) = none) :
    exportHydrateScene b4 { s with imageUrl := none } = s := by
  cases s with
  | mk id prompt imageUrl loading error timestamp ci cost =>
    unfold exportHydrateScene
    cases imageUrl with
    | none =>
      have h0 := hnone rfl
      have h4 : getAsset b4 (sceneKey id) = none := by
        rw [getAsset_congr _ hb]
        exact h0
      rw [h4]
    | some v =>
      have hv : v ≠ "" := by
        intro he
        exact hwf (by rw [he])
      dsimp only at hb
      rw [if_neg hv] at hb
      have h4 : getAsset b4 (sceneKey id) = some v := by
        unfold getAsset
        rw [hb]
        dsimp only
        rw [if_neg hv]
      rw [h4]

theorem roundtrip_line (bsrc b4 : BlobStore) (l : ScriptLine)
    (hb : b4 (voiceKey l.id) =
      match l.audioUrl with
      | some v => if v = "" then bsrc (voiceKey l.id) else some v
      | none => bsrc (voiceKey l.id))
    (hwf : l.audioUrl ≠ some "")
    (hnone : l.audioUrl = none → getAsset bsrc (voiceKey l.id) = none) :
    exportHydrateLine b4 { l with audioUrl := none } = l := by
  cases l with
  | mk id speaker text audioUrl isLoading voiceName matched cost =>
    unfold exportHydrateLine
    rw [if_neg (by simp [strTruthy])]
    cases audioUrl with
    | none =>
      have h0 := hnone rfl
      have h4 : getAsset b4 (voiceKey id) = none := by
        rw [getAsset_congr _ hb]
        exact h0
      rw [h4]
    | some v =>
      have hv : v ≠ "" := by
        intro he
        exact hwf (by rw [he])
      dsimp only at hb
      rw [if_neg hv] at hb
      have h4 : getAsset b4 (voiceKey id) = some v := by
        unfold getAsset
        rw [hb]
        dsimp only
        rw [if_neg hv]
      rw [h4]

theorem roundtrip_job (bsrc b4 : BlobStore) (m : VideoJob)
    (hb : b4 (videoKey m.id) =
      match m.videoUrl with
      | some v => if v = "" then bsrc (videoKey m.id) else some v
      | none => bsrc (videoKey m.id))
    (hwf : m.videoUrl ≠ some "")
    (hnone : m.videoUrl = none → getAsset bsrc (videoKey m.id) = none) :
    exportHydrateJob b4 { m with videoUrl := none } = m := by
  cases m with
  | mk id src srcImg prompt videoUrl status error cost =>
    unfold exportHydrateJob
    rw [if_neg (by simp [strTruthy])]
    cases videoUrl with
    | none =>
      have h0 := hnone rfl
      have h4 : getAsset b4 (videoKey id) = none := by
        rw [getAsset_congr _ hb]
        exact h0
      rw [h4]
    | some v =>
      have hv : v ≠ "" := by
        intro he
        exact hwf (by rw [he])
      dsimp only at hb
      rw [if_neg hv] at hb
      have h4 : getAsset b4 (videoKey id) = some v := by
        unfold getAsset
        rw [hb]
        dsimp only
        rw [if_neg hv]
      rw [h4]

/-- Content of the imported project, characterised pointwise: given the
final slice reads and final blob reads the re-hydrated content equals the
source content. -/
theorem projectContent_after_import
    (userId newId : String) (bsrc : BlobStore) (LS4 : LS) (B4 : BlobStore)
    (C : ProjectContent)
    (hrc : LS4 (projectDataKey newId "cast") =
      some (.castV (C.cast.map fun c => { c with image := none })))
    (hrs : LS4 (projectDataKey newId "scenes") =
      some (.scenesV (C.scenes.map fun s => { s with imageUrl := none })))
    (hrv : LS4 (projectDataKey newId "voice") =
      some (.voiceV { C.voice with lines := C.voice.lines.map fun l => { l with audioUrl := none } }))
    (hrm : LS4 (projectDataKey newId "motion") =
      some (.motionV (C.motion.map fun m => { m with videoUrl := none })))
    (hbc : ∀ c ∈ C.cast, B4 (castKey c.id) =
      match c.image with
      | some v => if v = "" then bsrc (castKey c.id) else some v
      | none => bsrc (castKey c.id))
    (hbs : ∀ s ∈ C.scenes, B4 (sceneKey s.id) =
      match s.imageUrl with
      | some v => if v = "" then bsrc (sceneKey s.id) else some v
      | none => bsrc (sceneKey s.id))
    (hbv : ∀ l ∈ C.voice.lines, B4 (voiceKey l.id) =
      match l.audioUrl with
      | some v => if v = "" then bsrc (voiceKey l.id) else some v
      | none => bsrc (voiceKey l.id))
    (hbm : ∀ m ∈ C.motion, B4 (videoKey m.id) =
      match m.videoUrl with
      | some v => if v = "" then bsrc (videoKey m.id) else some v
      | none => bsrc (videoKey m.id))
    (hwfc : ∀ c ∈ C.cast, c.image ≠ some "")
    (hwfs : ∀ s ∈ C.scenes, s.imageUrl ≠ some "")
    (hwfl : ∀ l ∈ C.voice.lines, l.audioUrl ≠ some "")
    (hwfm : ∀ m ∈ C.motion, m.videoUrl ≠ some "")
    (hnc : ∀ c ∈ C.cast, c.image = none → getAsset bsrc (castKey c.id) = none)
    (hns : ∀ s ∈ C.scenes, s.imageUrl = none → getAsset bsrc (sceneKey s.id) = none)
    (hnv : ∀ l ∈ C.voice.lines, l.audioUrl = none → getAsset bsrc (voiceKey l.id) = none)
    (hnm : ∀ m ∈ C.motion, m.videoUrl = none → getAsset bsrc (videoKey m.id) = none) :
    projectContent userId newId ⟨LS4, B4⟩ = C := by
  unfold projectContent loadCastSlice loadScenesSlice loadVoiceSlice loadMotionSlice
    loadProjectData
  dsimp only
  rw [hrc, hrs, hrv, hrm]
  dsimp only
  cases C with
  | mk cc cs cv cm =>
    cases cv with
    | mk vtxt vmap vlines =>
      dsimp only at hbc hbs hbv hbm hwfc hwfs hwfl hwfm hnc hns hnv hnm
      simp only [ProjectContent.mk.injEq, VoiceData.mk.injEq]
      refine ⟨?_, ?_, ⟨trivial, trivial, ?_⟩, ?_⟩
      · rw [List.map_map]
        conv_rhs => rw [← List.map_id cc]
        apply List.map_congr_left
        intro c hcm
        show exportHydrateCast B4 { c with image := none } = c
        exact roundtrip_cast bsrc B4 c (hbc c hcm) (hwfc c hcm) (hnc c hcm)
      · rw [List.map_map]
        conv_rhs => rw [← List.map_id cs]
        apply List.map_congr_left
        intro s hsm
        show exportHydrateScene B4 { s with imageUrl := none } = s
        exact roundtrip_scene bsrc B4 s (hbs s hsm) (hwfs s hsm) (hns s hsm)
      · rw [List.map_map]
        conv_rhs => rw [← List.map_id vlines]
        apply List.map_congr_left
        intro l hlm
        show exportHydrateLine B4 { l with audioUrl := none } = l
        exact roundtrip_line bsrc B4 l (hbv l hlm) (hwfl l hlm) (hnv l hlm)
      · rw [List.map_map]
        conv_rhs => rw [← List.map_id cm]
        apply List.map_congr_left
        intro m hmm
        show exportHydrateJob B4 { m with videoUrl := none } = m
        exact roundtrip_job bsrc B4 m (hbm m hmm) (hwfm m hmm) (hnm m hmm)

/-! ## C2 — export/import round trip -/

/-- C2: importing a just-exported document yields a project whose
cast/scenes/voice/motion content — slice metadata plus re-hydrated
binaries — equals the source project's content, the freshly allocated id
and re-titled metadata aside.  Hypotheses formalise the claim's scope:
the export succeeded, the quota check passes, entity ids are unique per
slice (the spec's documented global-uniqueness constraint), populated
cast/scene binaries are non-empty strings, and the fresh project's slice
keys do not collide with the user's index key (true of `randomUUID` ids).
The three advertised cases — zero entities, all-null binaries, populated
binaries — all satisfy these hypotheses. -/
theorem export_import_roundtrip
    (env : QuotaEnv) (userId newId pid : String) (now : Int) (st : St)
    (doc : FullProjectExport)
    (hq : quotaAlwaysOk env)
    (hexp : exportProject userId pid st = some doc)
    (hids : docSliceIdsNodup doc)
    (hbin : docNoEmptyBinary doc)
    (hk1 : getProjectIndexKey userId ≠ projectDataKey newId "cast")
    (hk2 : getProjectIndexKey userId ≠ projectDataKey newId "scenes")
    (hk3 : getProjectIndexKey userId ≠ projectDataKey newId "voice")
    (hk4 : getProjectIndexKey userId ≠ projectDataKey newId "motion") :
    (importProject env userId newId now doc.toImportDoc st).1 =
      .ok { doc.metadata with id := newId, title := doc.metadata.title ++ " (Imported)", lastModified := now } ∧
    projectContent userId newId (importProject env userId newId now doc.toImportDoc st).2 =
      projectContent userId pid st := by
  rcases hfind : (getAllProjects st.ls (dummyUser userId) false).find? (fun p => p.id = pid)
    with _ | md
  · unfold exportProject at hexp
    rw [hfind] at hexp
    simp at hexp
  · unfold exportProject at hexp
    rw [hfind] at hexp
    dsimp only at hexp
    rw [Option.some_inj] at hexp
    subst hexp
    have hwc : ∀ b, writeCastBlobs env (projectContent userId pid st).cast b =
        (applyEntityBlobs (fun c => castKey c.id) (fun c => c.image)
          (projectContent userId pid st).cast b, none) :=
      fun b => writeEntityBlobs_ok env _ _ hq _ b
    have hws : ∀ b, writeSceneBlobs env (projectContent userId pid st).scenes b =
        (applyEntityBlobs (fun s => sceneKey s.id) (fun s => s.imageUrl)
          (projectContent userId pid st).scenes b, none) :=
      fun b => writeEntityBlobs_ok env _ _ hq _ b
    have hwv : ∀ b, writeVoiceBlobs env (projectContent userId pid st).voice.lines b =
        (applyEntityBlobs (fun l => voiceKey l.id) (fun l => l.audioUrl)
          (projectContent userId pid st).voice.lines b, none) :=
      fun b => writeEntityBlobs_ok env _ _ hq _ b
    have hwm : ∀ b, writeMotionBlobs env (projectContent userId pid st).motion b =
        (applyEntityBlobs (fun m => videoKey m.id) (fun m => m.videoUrl)
          (projectContent userId pid st).motion b, none) :=
      fun b => writeEntityBlobs_ok env _ _ hq _ b
    have hndc : ((projectContent userId pid st).cast.map (fun c => castKey c.id)).Nodup := by
      rw [show (fun c : CastMember => castKey c.id) = (castKey ∘ CastMember.id) from rfl,
        ← List.map_map]
      exact List.Nodup.map castKey_injective hids.1
    have hnds : ((projectContent userId pid st).scenes.map (fun s => sceneKey s.id)).Nodup := by
      rw [show (fun s : GeneratedScene => sceneKey s.id) = (sceneKey ∘ GeneratedScene.id) from rfl,
        ← List.map_map]
      exact List.Nodup.map sceneKey_injective hids.2.1
    have hndv : ((projectContent userId pid st).voice.lines.map
        (fun l => voiceKey l.id)).Nodup := by
      rw [show (fun l : ScriptLine => voiceKey l.id) = (voiceKey ∘ ScriptLine.id) from rfl,
        ← List.map_map]
      exact List.Nodup.map voiceKey_injective hids.2.2.1
    have hndm : ((projectContent userId pid st).motion.map (fun m => videoKey m.id)).Nodup := by
      rw [show (fun m : VideoJob => videoKey m.id) = (videoKey ∘ VideoJob.id) from rfl,
        ← List.map_map]
      exact List.Nodup.map videoKey_injective hids.2.2.2
    constructor
    · show (importProjectBody env userId newId now md (projectContent userId pid st).cast
          (projectContent userId pid st).scenes (some (projectContent userId pid st).voice)
          (some (projectContent userId pid st).motion) st).1 =
        .ok { md with id := newId, title := md.title ++ " (Imported)", lastModified := now }
      unfold importProjectBody
      rw [hwc]
      dsimp only
      rw [hws]
      dsimp only
      rw [hwv]
      dsimp only
      rw [hwm]
    · show projectContent userId newId
          (importProjectBody env userId newId now md (projectContent userId pid st).cast
            (projectContent userId pid st).scenes (some (projectContent userId pid st).voice)
            (some (projectContent userId pid st).motion) st).2 =
        projectContent userId pid st
      unfold importProjectBody
      rw [hwc]
      dsimp only
      rw [hws]
      dsimp only
      rw [hwv]
      dsimp only
      rw [hwm]
      dsimp only
      apply projectContent_after_import userId newId st.blobs
      · rw [saveProjectData_get_other _ _ "motion" _ _ _ _ (Ne.symm hk1)
            (projectDataKey_suffix_inj (by decide)),
          saveProjectData_get_other _ _ "voice" _ _ _ _ (Ne.symm hk1)
            (projectDataKey_suffix_inj (by decide)),
          saveProjectData_get_other _ _ "scenes" _ _ _ _ (Ne.symm hk1)
            (projectDataKey_suffix_inj (by decide)),
          saveProjectData_get_self _ _ _ _ _ _ (Ne.symm hk1)]
      · rw [saveProjectData_get_other _ _ "motion" _ _ _ _ (Ne.symm hk2)
            (projectDataKey_suffix_inj (by decide)),
          saveProjectData_get_other _ _ "voice" _ _ _ _ (Ne.symm hk2)
            (projectDataKey_suffix_inj (by decide)),
          saveProjectData_get_self _ _ _ _ _ _ (Ne.symm hk2)]
      · rw [saveProjectData_get_other _ _ "motion" _ _ _ _ (Ne.symm hk3)
            (projectDataKey_suffix_inj (by decide)),
          saveProjectData_get_self _ _ _ _ _ _ (Ne.symm hk3)]
      · rw [saveProjectData_get_self _ _ _ _ _ _ (Ne.symm hk4)]
      · intro c hcm
        rw [applyEntityBlobs_get_notmem _ _ _ _ _
            (fun m _ => (castKey_ne_videoKey c.id m.id).symm),
          applyEntityBlobs_get_notmem _ _ _ _ _
            (fun l _ => (castKey_ne_voiceKey c.id l.id).symm),
          applyEntityBlobs_get_notmem _ _ _ _ _
            (fun s _ => (castKey_ne_sceneKey c.id s.id).symm)]
        exact applyEntityBlobs_get_mem _ _ _ _ c hcm hndc
      · intro s hsm
        rw [applyEntityBlobs_get_notmem _ _ _ _ _
            (fun m _ => (sceneKey_ne_videoKey s.id m.id).symm),
          applyEntityBlobs_get_notmem _ _ _ _ _
            (fun l _ => (sceneKey_ne_voiceKey s.id l.id).symm)]
        rw [applyEntityBlobs_get_mem _ _ _ _ s hsm hnds]
        rw [applyEntityBlobs_get_notmem _ _ _ _ _
            (fun c _ => (castKey_ne_sceneKey c.id s.id))]
      · intro l hlm
        rw [applyEntityBlobs_get_notmem _ _ _ _ _
            (fun m _ => (voiceKey_ne_videoKey l.id m.id).symm)]
        rw [applyEntityBlobs_get_mem _ _ _ _ l hlm hndv]
        rw [applyEntityBlobs_get_notmem _ _ _ _ _
            (fun s _ => (sceneKey_ne_voiceKey s.id l.id)),
          applyEntityBlobs_get_notmem _ _ _ _ _
            (fun c _ => (castKey_ne_voiceKey c.id l.id))]
      · intro m hmm
        rw [applyEntityBlobs_get_mem _ _ _ _ m hmm hndm]
        rw [applyEntityBlobs_get_notmem _ _ _ _ _
            (fun l _ => (voiceKey_ne_videoKey l.id m.id)),
          applyEntityBlobs_get_notmem _ _ _ _ _
            (fun s _ => (sceneKey_ne_videoKey s.id m.id)),
          applyEntityBlobs_get_notmem _ _ _ _ _
            (fun c _ => (castKey_ne_videoKey c.id m.id))]
      · exact hbin.1
      · exact hbin.2
      · intro l hlm
        exact @exportHydrateLine_audio_ne_empty st.blobs
          ((loadVoiceSlice userId pid st.ls).lines) l hlm
      · intro m hmm
        exact @exportHydrateJob_video_ne_empty st.blobs
          (loadMotionSlice userId pid st.ls) m hmm
      · intro c hcm h0
        exact @exportHydrateCast_image_none st.blobs (loadCastSlice userId pid st.ls) c hcm h0
      · intro s hsm h0
        exact @exportHydrateScene_image_none st.blobs (loadScenesSlice userId pid st.ls) s hsm h0
      · intro l hlm h0
        exact @exportHydrateLine_audio_none st.blobs
          ((loadVoiceSlice userId pid st.ls).lines) l hlm h0
      · intro m hmm h0
        exact @exportHydrateJob_video_none st.blobs (loadMotionSlice userId pid st.ls) m hmm h0

/-- Witness for C2: the one-cast-member project `stSrc` exported and
re-imported under fresh id `"p2"`. -/
theorem export_import_roundtrip_witness :
    (importProject envFree "u" "p2" 9 docSrc.toImportDoc stSrc).1 =
      .ok { docSrc.metadata with id := "p2", title := docSrc.metadata.title ++ " (Imported)", lastModified := 9 } ∧
    projectContent "u" "p2" (importProject envFree "u" "p2" 9 docSrc.toImportDoc stSrc).2 =
      projectContent "u" "p1" stSrc :=
  export_import_roundtrip envFree "u" "p2" "p1" 9 stSrc docSrc (fun _ => rfl)
    (by decide) (by unfold docSliceIdsNodup; decide) (by unfold docNoEmptyBinary; decide)
    (by decide) (by decide) (by decide) (by decide)
